import Mathlib

/-!
# Verification of the Kyronix paystub computation engine

Shallow embedding of the paystub computation engine found in
`src/frontend/src/pages/admin/AdminPaystubs.tsx`, together with proofs and
refutations of the specification's claims about it.

Modelling conventions:
* Monetary amounts and rates are rationals (`ℚ`).  The source operates on JS
  doubles; `roundCurrency` there is
  `Math.round((value + Number.EPSILON) * 100) / 100`, where the `EPSILON`
  term only compensates binary floating-point representation error.  On `ℚ`
  we model it as exact round-half-up to cents, which is the semantics the
  computation implements.
* Dates are days since the epoch 1970-01-01 (`ℤ`), mirroring the JS `Date`
  day arithmetic of `addDays`.  `yearOf` is the Gregorian calendar year
  (`Date.getFullYear`), computed by the standard civil-from-days algorithm,
  and `dayOfWeek` is `Date.getDay` (0 = Sunday; 1970-01-01 was a Thursday).
  The source compares dates via the injective string `formatDate`; we
  compare day numbers directly, which is equivalent.
* Form fields reach the engine through `parseNumber` / `parseDate` /
  `parseInt`; the embedding takes the parsed values (rationals, optional
  dates, a natural count) as its input boundary.
-/

namespace Kyronix

/-- `roundCurrency` from the source: round a value to cents, half up. -/
def roundCurrency (value : ℚ) : ℚ := (⌊value * 100 + 1/2⌋ : ℤ) / 100

/-- A value is an exact number of cents. -/
def IsCents (q : ℚ) : Prop := ∃ n : ℤ, q * 100 = (n : ℚ)

theorem isCents_roundCurrency (q : ℚ) : IsCents (roundCurrency q) := by
  refine ⟨⌊q * 100 + 1/2⌋, ?_⟩
  unfold roundCurrency
  ring

theorem roundCurrency_eq_self {q : ℚ} (h : IsCents q) : roundCurrency q = q := by
  obtain ⟨n, hn⟩ := h
  unfold roundCurrency
  have hq : q = (n : ℚ) / 100 := by
    field_simp at hn ⊢
    linarith
  subst hq
  have : ⌊(n : ℚ) / 100 * 100 + 1/2⌋ = n := by
    have h1 : (n : ℚ) / 100 * 100 + 1/2 = (n : ℚ) + 1/2 := by ring
    rw [h1]
    have h2 : ((n : ℚ) + 1/2) = (n : ℚ) + (1/2 : ℚ) := rfl
    rw [Int.floor_eq_iff]
    constructor
    · linarith
    · linarith
  rw [this]

theorem IsCents.add {a b : ℚ} (ha : IsCents a) (hb : IsCents b) : IsCents (a + b) := by
  obtain ⟨m, hm⟩ := ha; obtain ⟨n, hn⟩ := hb
  exact ⟨m + n, by push_cast; rw [add_mul, hm, hn]⟩

theorem IsCents.sub {a b : ℚ} (ha : IsCents a) (hb : IsCents b) : IsCents (a - b) := by
  obtain ⟨m, hm⟩ := ha; obtain ⟨n, hn⟩ := hb
  exact ⟨m - n, by push_cast; rw [sub_mul, hm, hn]⟩

theorem IsCents.max {a b : ℚ} (ha : IsCents a) (hb : IsCents b) : IsCents (max a b) := by
  rcases le_total a b with h | h
  · rwa [max_eq_right h]
  · rwa [max_eq_left h]

theorem isCents_zero : IsCents 0 := ⟨0, by norm_num⟩

theorem roundCurrency_mono {a b : ℚ} (h : a ≤ b) : roundCurrency a ≤ roundCurrency b := by
  unfold roundCurrency
  have hf : ⌊a * 100 + 1/2⌋ ≤ ⌊b * 100 + 1/2⌋ := by
    apply Int.floor_le_floor
    nlinarith
  have : ((⌊a * 100 + 1/2⌋ : ℚ)) ≤ ((⌊b * 100 + 1/2⌋ : ℚ)) := by exact_mod_cast hf
  linarith

/-! ## Dates

Days since 1970-01-01.  `yearOf` follows the standard civil-from-days
conversion (the arithmetic JS `Date.getFullYear` realises); `daysFromCivil`
is its inverse, used to write concrete dates. -/

/-- `addDays` from the source. -/
def addDays (date : ℤ) (days : ℤ) : ℤ := date + days

/-- Gregorian calendar year of an epoch day (`Date.getFullYear`). -/
def yearOf (d : ℤ) : ℤ :=
  let z := d + 719468
  let era := Int.fdiv z 146097
  let doe := z - era * 146097
  let yoe := Int.fdiv (doe - Int.fdiv doe 1460 + Int.fdiv doe 36524 - Int.fdiv doe 146095) 365
  let y := yoe + era * 400
  let doy := doe - (365 * yoe + Int.fdiv yoe 4 - Int.fdiv yoe 100)
  let mp := Int.fdiv (5 * doy + 2) 153
  let m := if mp < 10 then mp + 3 else mp - 9
  if m ≤ 2 then y + 1 else y

/-- Epoch day of a civil date (inverse of the civil conversion). -/
def daysFromCivil (y m d : ℤ) : ℤ :=
  let y' := if m ≤ 2 then y - 1 else y
  let era := Int.fdiv y' 400
  let yoe := y' - era * 400
  let doy := Int.fdiv (153 * (if 2 < m then m - 3 else m + 9) + 2) 5 + d - 1
  let doe := yoe * 365 + Int.fdiv yoe 4 - Int.fdiv yoe 100 + doy
  era * 146097 + doe - 719468

/-- `Date.getDay`: 0 = Sunday.  1970-01-01 was a Thursday (4). -/
def dayOfWeek (d : ℤ) : ℤ := (d + 4) % 7

/-- `isLastPayDateOfYear` from the source: the next bi-weekly pay date
falls in a different calendar year. -/
def isLastPayDateOfYear (payDate : ℤ) : Bool :=
  yearOf (addDays payDate 14) != yearOf payDate

/-! ## Tax tables -/

/-- A federal bracket; `max = none` is the unbounded top bracket
(`Number.POSITIVE_INFINITY` in the source). -/
structure FederalBracket where
  min : ℚ
  max : Option ℚ
  rate : ℚ
deriving DecidableEq

/-- A state PIT bracket with cumulative base amount. -/
structure StateBracket where
  min : ℚ
  max : Option ℚ
  base : ℚ
  rate : ℚ
deriving DecidableEq

/-- Does `x` lie in `[lo, hi]`, with `hi = none` meaning `+∞`? -/
def inRange (x lo : ℚ) (hi : Option ℚ) : Bool :=
  decide (lo ≤ x) && (match hi with
    | none => true
    | some h => decide (x ≤ h))

/-- `FEDERAL_BRACKETS` from the source. -/
def FEDERAL_BRACKETS : List FederalBracket :=
  [⟨0, some 48475, 12⟩,
   ⟨48476, some 103350, 22⟩,
   ⟨103351, some 197300, 24⟩,
   ⟨197301, some 250525, 32⟩,
   ⟨250526, none, 32⟩]

/-- `PIT_CA_2026_SINGLE` from the source. -/
def PIT_CA_2026_SINGLE : List StateBracket :=
  [⟨0, some 11079, 0, 1⟩,
   ⟨11079, some 26264, 110.79, 2⟩,
   ⟨26264, some 41452, 414.49, 4⟩,
   ⟨41452, some 57542, 1022.01, 6⟩,
   ⟨57542, some 72724, 1987.41, 8⟩,
   ⟨72724, some 371479, 3201.97, 9.3⟩,
   ⟨371479, some 445771, 30986.19, 10.3⟩,
   ⟨445771, some 742953, 38651.56, 11.3⟩,
   ⟨742953, none, 72217.2, 12.3⟩]

/-- `STANDARD_SDI_RATE` from the source. -/
def STANDARD_SDI_RATE : ℚ := 1.1

/-- `VACATION_ACCRUAL_PER_PERIOD` from the source. -/
def VACATION_ACCRUAL_PER_PERIOD : ℚ := 80 / 26

/-- `VACATION_CAP` from the source. -/
def VACATION_CAP : ℚ := 120

/-- `SICK_ACCRUAL_PER_PERIOD` from the source. -/
def SICK_ACCRUAL_PER_PERIOD : ℚ := 40 / 26

/-- `SICK_CAP` from the source. -/
def SICK_CAP : ℚ := 80

/-- `getFederalRate` from the source: rate of the first bracket whose
interval contains the pay, `0` if none matches. -/
def getFederalRate (annualPay : ℚ) : ℚ :=
  match FEDERAL_BRACKETS.find? (fun entry => inRange annualPay entry.min entry.max) with
  | some bracket => bracket.rate
  | none => 0

/-- `calculatePitTax` from the source: progressive state tax of an annual
taxable wage, rounded to cents. -/
def calculatePitTax (annualPay : ℚ) : ℚ :=
  if annualPay ≤ 0 then 0
  else
    match PIT_CA_2026_SINGLE.find? (fun entry => inRange annualPay entry.min entry.max) with
    | none => 0
    | some bracket => roundCurrency (bracket.base + (annualPay - bracket.min) * (bracket.rate / 100))

/-- `getPitEffectiveRate` from the source. -/
def getPitEffectiveRate (annualPay : ℚ) : ℚ :=
  if annualPay ≤ 0 then 0
  else roundCurrency (calculatePitTax annualPay / annualPay * 100)

/-! ## Engine input and output data -/

/-- `PayType` from the source. -/
inductive PayType
  | SALARY
  | HOURLY
  | CONTRACTOR
deriving DecidableEq

export PayType (SALARY HOURLY CONTRACTOR)

/-- The form state feeding the `computed` memo, after
`parseNumber` / `parseDate` / `parseInt` parsing.  `pitRate` is part of the
form state but unused by the computation (PIT is computed marginally). -/
structure Inputs where
  payType : PayType
  annualSalary : ℚ
  hourlyRate : ℚ
  hoursWorked : ℚ
  hireDate : Option ℤ
  mostRecentPayDate : Option ℤ
  paystubCount : ℕ
  includeFederal : Bool
  includeSocialSecurity : Bool
  includeMedicare : Bool
  includePit : Bool
  includeSdi : Bool
  includeHealth : Bool
  includeContractorFee : Bool
  include401k : Bool
  ssRate : ℚ
  medicareRate : ℚ
  pitRate : ℚ
  sdiRate : ℚ
  healthAmount : ℚ
  contractorFeeRate : ℚ
  yearEndBonusRate : ℚ
  rate401k : ℚ
deriving DecidableEq

/-- An earnings line before its YTD amount is attached
(`Omit<EarningsLine, "ytd_amount">`). -/
structure EarningsBase where
  description : String
  hours : Option ℚ
  rate : Option ℚ
  current_amount : ℚ
deriving DecidableEq

/-- `EarningsLine` from the source. -/
structure EarningsLine where
  description : String
  hours : Option ℚ
  rate : Option ℚ
  current_amount : ℚ
  ytd_amount : ℚ
deriving DecidableEq

/-- A deduction line before its YTD amount is attached. -/
structure DeductionBase where
  deduction_name : String
  current_amount : ℚ
deriving DecidableEq

/-- `DeductionLine` from the source. -/
structure DeductionLine where
  deduction_name : String
  current_amount : ℚ
  ytd_amount : ℚ
deriving DecidableEq, Inhabited

/-- `TotalsLine` from the source. -/
structure TotalsLine where
  gross_pay_current : ℚ
  total_deductions_current : ℚ
  net_pay_current : ℚ
  gross_pay_ytd : ℚ
  total_deductions_ytd : ℚ
  net_pay_ytd : ℚ
deriving DecidableEq, Inhabited

/-- `leave_balances` of a `PaystubDraft`. -/
structure LeaveBalances where
  vacation_accrued : ℚ
  vacation_used : ℚ
  vacation_balance : ℚ
  sick_accrued : ℚ
  sick_used : ℚ
  sick_balance : ℚ
deriving DecidableEq

/-- `PaystubDraft` from the source (dates as epoch days). -/
structure PaystubDraft where
  pay_date : ℤ
  pay_period_start : ℤ
  pay_period_end : ℤ
  earnings : List EarningsLine
  deductions : List DeductionLine
  totals : TotalsLine
  leave_balances : Option LeaveBalances
deriving DecidableEq, Inhabited

/-- Annualized pay (`annualizedPay` in `computed`). -/
def annualizedPay (inp : Inputs) : ℚ :=
  match inp.payType with
  | SALARY => inp.annualSalary
  | _ => roundCurrency (inp.hourlyRate * 2080)

/-- Result record of `buildCurrentLines`. -/
structure CurrentLines where
  earningsBase : List EarningsBase
  grossPayCurrent : ℚ
  preTaxFederal : ℚ
  preTaxFica : ℚ
  preTaxSdi : ℚ
  deductionsBase : List DeductionBase
deriving DecidableEq

/-- The `earningsBase` built by `buildCurrentLines`, per pay type. -/
def earningsBaseOf (inp : Inputs) (bonusAmount : ℚ) (salaryGrossOverride : Option ℚ) :
    List EarningsBase :=
  match inp.payType with
  | SALARY =>
    let baseGross := roundCurrency (inp.annualSalary / 26)
    let gross := salaryGrossOverride.getD baseGross
    let rate := roundCurrency (inp.annualSalary / 2080)
    ⟨"Regular Earnings", some 80, some rate, gross⟩ ::
      (if bonusAmount > 0 then [⟨"Year-end Bonus", none, none, bonusAmount⟩] else [])
  | HOURLY =>
    let regularHours := min inp.hoursWorked 80
    let overtimeHours := max 0 (inp.hoursWorked - 80)
    (if regularHours > 0 then
      [⟨"Regular Earnings", some (roundCurrency regularHours),
        some (roundCurrency inp.hourlyRate), roundCurrency (regularHours * inp.hourlyRate)⟩]
     else []) ++
    (if overtimeHours > 0 then
      let overtimeRate := roundCurrency (inp.hourlyRate * 1.5)
      [⟨"Overtime", some (roundCurrency overtimeHours), some overtimeRate,
        roundCurrency (overtimeHours * overtimeRate)⟩]
     else [])
  | CONTRACTOR =>
    if inp.hoursWorked > 0 then
      [⟨"Contractor Earnings", some (roundCurrency inp.hoursWorked),
        some (roundCurrency inp.hourlyRate), roundCurrency (inp.hoursWorked * inp.hourlyRate)⟩]
    else []

/-- `grossPayCurrent` of `buildCurrentLines`. -/
def grossPayCurrentOf (inp : Inputs) (bonusAmount : ℚ) (salaryGrossOverride : Option ℚ) : ℚ :=
  roundCurrency (((earningsBaseOf inp bonusAmount salaryGrossOverride).map
    (·.current_amount)).sum)

/-- `preTax401k` of `buildCurrentLines`. -/
def preTax401kOf (inp : Inputs) (grossPayCurrent : ℚ) : ℚ :=
  if inp.include401k && decide (inp.payType = SALARY) then
    roundCurrency (grossPayCurrent * inp.rate401k / 100)
  else 0

/-- `preTaxHealth` of `buildCurrentLines`. -/
def preTaxHealthOf (inp : Inputs) : ℚ :=
  if inp.includeHealth then roundCurrency inp.healthAmount else 0

/-- `buildCurrentLines` from the source: earnings lines per pay type, the
current gross, the pre-tax amounts, and the pre-tax deduction lines.
The `payDate` parameter is present in the source but unused. -/
def buildCurrentLines (inp : Inputs) (_payDate : ℤ) (bonusAmount : ℚ)
    (salaryGrossOverride : Option ℚ) : CurrentLines :=
  let earningsBase := earningsBaseOf inp bonusAmount salaryGrossOverride
  let grossPayCurrent := grossPayCurrentOf inp bonusAmount salaryGrossOverride
  let preTax401k := preTax401kOf inp grossPayCurrent
  let preTaxHealth := preTaxHealthOf inp
  { earningsBase := earningsBase
    grossPayCurrent := grossPayCurrent
    preTaxFederal := roundCurrency (preTax401k + preTaxHealth)
    preTaxFica := preTaxHealth
    preTaxSdi := preTaxHealth
    deductionsBase :=
      (if inp.include401k && decide (inp.payType = SALARY) then
        [⟨"401(k) Contribution", preTax401k⟩] else []) ++
      (if inp.includeHealth then [⟨"Health Plan", preTaxHealth⟩] else []) ++
      (if decide (inp.payType = CONTRACTOR) && inp.includeContractorFee then
        [⟨"Contractor Fee", roundCurrency (grossPayCurrent * inp.contractorFeeRate / 100)⟩]
       else []) }

/-! ## YTD accumulator -/

/-- The mutable `ytd` record of `buildYtdForDate`.  The two
`Record<string, number>` maps are modelled as total functions defaulting to
`0`, matching the source's `map[key] || 0` lookups. -/
structure YtdState where
  gross : ℚ
  deductions : ℚ
  net : ℚ
  pitTaxable : ℚ
  earnings : String → ℚ
  deductionLines : String → ℚ

/-- Point update of a YTD map. -/
def updateMap (m : String → ℚ) (key : String) (v : ℚ) : String → ℚ :=
  fun k => if k = key then v else m k

/-- Initial `ytd` record. -/
def initialYtd : YtdState := ⟨0, 0, 0, 0, fun _ => 0, fun _ => 0⟩

/-- Everything the loop body of `buildYtdForDate` computes for one period,
including the locals the claims talk about. -/
structure PeriodResult where
  current : CurrentLines
  taxableFederal : ℚ
  taxableFica : ℚ
  taxableSdi : ℚ
  pitTaxableBefore : ℚ
  pitCurrent : ℚ
  deductionsBase : List DeductionBase
  totalDeductionsCurrent : ℚ
  netPayCurrent : ℚ
  earningsWithYtd : List EarningsLine
  deductionsWithYtd : List DeductionLine

/-- `shouldApplyBonus` / `bonusAmount` of the replay loop. -/
def bonusAmountOf (inp : Inputs) (salaryTargetTotal : ℚ) (date : ℤ) : ℚ :=
  if decide (inp.payType = SALARY) && decide (inp.yearEndBonusRate > 0) &&
      isLastPayDateOfYear date then
    roundCurrency (salaryTargetTotal * inp.yearEndBonusRate / 100)
  else 0

/-- `salaryGrossOverride` of the replay loop. -/
def salaryGrossOverrideOf (inp : Inputs) (trueUpGross : ℚ) (date : ℤ) : Option ℚ :=
  if decide (inp.payType = SALARY) && isLastPayDateOfYear date then some trueUpGross else none

/-- `current` of the replay loop. -/
def periodCurrent (inp : Inputs) (salaryTargetTotal trueUpGross : ℚ) (date : ℤ) : CurrentLines :=
  buildCurrentLines inp date (bonusAmountOf inp salaryTargetTotal date)
    (salaryGrossOverrideOf inp trueUpGross date)

/-- `taxableFederal` of the replay loop. -/
def periodTaxableFederal (inp : Inputs) (salaryTargetTotal trueUpGross : ℚ) (date : ℤ) : ℚ :=
  let current := periodCurrent inp salaryTargetTotal trueUpGross date
  max 0 (current.grossPayCurrent - current.preTaxFederal)

/-- `taxableFica` of the replay loop. -/
def periodTaxableFica (inp : Inputs) (salaryTargetTotal trueUpGross : ℚ) (date : ℤ) : ℚ :=
  let current := periodCurrent inp salaryTargetTotal trueUpGross date
  max 0 (current.grossPayCurrent - current.preTaxFica)

/-- `taxableSdi` of the replay loop. -/
def periodTaxableSdi (inp : Inputs) (salaryTargetTotal trueUpGross : ℚ) (date : ℤ) : ℚ :=
  let current := periodCurrent inp salaryTargetTotal trueUpGross date
  max 0 (current.grossPayCurrent - current.preTaxSdi)

/-- `pitCurrent` of the replay loop: the clamped marginal delta of the
cumulative progressive tax. -/
def periodPitCurrent (inp : Inputs) (salaryTargetTotal trueUpGross : ℚ) (date : ℤ)
    (pitTaxableBefore : ℚ) : ℚ :=
  max 0 (calculatePitTax (pitTaxableBefore + periodTaxableFederal inp salaryTargetTotal trueUpGross date) -
    calculatePitTax pitTaxableBefore)

/-- The tax deduction lines pushed by the replay loop after the pre-tax
lines of `buildCurrentLines`. -/
def taxDeductions (inp : Inputs) (taxableFederal taxableFica taxableSdi pitCurrent : ℚ) :
    List DeductionBase :=
  (if inp.includeFederal && decide (getFederalRate (annualizedPay inp) > 0) then
    [⟨"Federal Income Tax",
      roundCurrency (taxableFederal * getFederalRate (annualizedPay inp) / 100)⟩]
   else []) ++
  (if inp.includeSocialSecurity then
    [⟨"Social Security", roundCurrency (taxableFica * inp.ssRate / 100)⟩] else []) ++
  (if inp.includeMedicare then
    [⟨"Medicare", roundCurrency (taxableFica * inp.medicareRate / 100)⟩] else []) ++
  (if inp.includeSdi then
    [⟨"State Disability (SDI)", roundCurrency (taxableSdi * inp.sdiRate / 100)⟩] else []) ++
  (if inp.includePit then
    [⟨"State Income Tax (PIT)", roundCurrency pitCurrent⟩] else [])

/-- The full deduction list of one period. -/
def periodDeductionsBase (inp : Inputs) (salaryTargetTotal trueUpGross : ℚ) (date : ℤ)
    (pitTaxableBefore : ℚ) : List DeductionBase :=
  (periodCurrent inp salaryTargetTotal trueUpGross date).deductionsBase ++
    taxDeductions inp
      (periodTaxableFederal inp salaryTargetTotal trueUpGross date)
      (periodTaxableFica inp salaryTargetTotal trueUpGross date)
      (periodTaxableSdi inp salaryTargetTotal trueUpGross date)
      (periodPitCurrent inp salaryTargetTotal trueUpGross date pitTaxableBefore)

/-- `totalDeductionsCurrent` of the replay loop. -/
def periodTotalDeductions (inp : Inputs) (salaryTargetTotal trueUpGross : ℚ) (date : ℤ)
    (pitTaxableBefore : ℚ) : ℚ :=
  roundCurrency
    (((periodDeductionsBase inp salaryTargetTotal trueUpGross date pitTaxableBefore).map
      (·.current_amount)).sum)

/-- `netPayCurrent` of the replay loop. -/
def periodNetPay (inp : Inputs) (salaryTargetTotal trueUpGross : ℚ) (date : ℤ)
    (pitTaxableBefore : ℚ) : ℚ :=
  roundCurrency ((periodCurrent inp salaryTargetTotal trueUpGross date).grossPayCurrent -
    periodTotalDeductions inp salaryTargetTotal trueUpGross date pitTaxableBefore)

/-- The `earningsWithYtd` mapping of the replay loop: attach running YTD
amounts to each earnings line, updating the per-description map in
sequence. -/
def attachEarningsYtd (m : String → ℚ) : List EarningsBase → List EarningsLine × (String → ℚ)
  | [] => ([], m)
  | e :: rest =>
    let next := roundCurrency (m e.description + e.current_amount)
    let r := attachEarningsYtd (updateMap m e.description next) rest
    (⟨e.description, e.hours, e.rate, e.current_amount, next⟩ :: r.1, r.2)

/-- The `deductionsWithYtd` mapping of the replay loop. -/
def attachDeductionsYtd (m : String → ℚ) : List DeductionBase → List DeductionLine × (String → ℚ)
  | [] => ([], m)
  | e :: rest =>
    let next := roundCurrency (m e.deduction_name + e.current_amount)
    let r := attachDeductionsYtd (updateMap m e.deduction_name next) rest
    (⟨e.deduction_name, e.current_amount, next⟩ :: r.1, r.2)

/-- One iteration of the replay loop in `buildYtdForDate` (source lines
511–613 without the target-capture block), returning the period's data and
the updated `ytd` state. -/
def replayStep (inp : Inputs) (salaryTargetTotal trueUpGross : ℚ) (date : ℤ)
    (st : YtdState) : PeriodResult × YtdState :=
  let current := periodCurrent inp salaryTargetTotal trueUpGross date
  let taxableFederal := periodTaxableFederal inp salaryTargetTotal trueUpGross date
  let pitCurrent := periodPitCurrent inp salaryTargetTotal trueUpGross date st.pitTaxable
  let deductionsBase := periodDeductionsBase inp salaryTargetTotal trueUpGross date st.pitTaxable
  let totalDeductionsCurrent :=
    periodTotalDeductions inp salaryTargetTotal trueUpGross date st.pitTaxable
  let netPayCurrent := periodNetPay inp salaryTargetTotal trueUpGross date st.pitTaxable
  let earningsAcc := attachEarningsYtd st.earnings current.earningsBase
  let deductionsAcc := attachDeductionsYtd st.deductionLines deductionsBase
  (⟨current, taxableFederal,
    periodTaxableFica inp salaryTargetTotal trueUpGross date,
    periodTaxableSdi inp salaryTargetTotal trueUpGross date,
    st.pitTaxable, pitCurrent, deductionsBase,
    totalDeductionsCurrent, netPayCurrent, earningsAcc.1, deductionsAcc.1⟩,
   { gross := roundCurrency (st.gross + current.grossPayCurrent)
     deductions := roundCurrency (st.deductions + totalDeductionsCurrent)
     net := roundCurrency (st.net + netPayCurrent)
     pitTaxable :=
       if inp.includePit then roundCurrency (st.pitTaxable + taxableFederal) else st.pitTaxable
     earnings := earningsAcc.2
     deductionLines := deductionsAcc.2 })

/-- Chronological replay: run `replayStep` over the dates, keeping each
period's data and the state right after it. -/
def replaySnapshots (inp : Inputs) (salaryTargetTotal trueUpGross : ℚ) :
    List ℤ → YtdState → List (PeriodResult × YtdState)
  | [], _ => []
  | d :: rest, st =>
    let rs := replayStep inp salaryTargetTotal trueUpGross d st
    rs :: replaySnapshots inp salaryTargetTotal trueUpGross rest rs.2

/-- The hire-date cut applied to a candidate pay date: its period end
(pay date − 5 days) precedes the hire date.  This is the condition the
source writes both inside the `buildYtdForDate` walk and in the `computed`
schedule loop. -/
def shouldSkip (hire : Option ℤ) (payDate : ℤ) : Bool :=
  match hire with
  | some h => decide (addDays payDate (-5) < h)
  | none => false

/-- The backward walk of `buildYtdForDate`: collect 14-day-spaced dates
while they stay in the target calendar year and their period end has not
crossed the hire date.  The walk is fuelled; a calendar year contains at
most 27 bi-weekly dates, so fuel 400 never truncates it. -/
def datesInYearGo (hire : Option ℤ) (targetYear : ℤ) : ℕ → ℤ → List ℤ
  | 0, _ => []
  | fuel + 1, cursor =>
    if yearOf cursor = targetYear then
      if shouldSkip hire cursor then []
      else cursor :: datesInYearGo hire targetYear fuel (addDays cursor (-14))
    else []

/-- `datesInYear` of `buildYtdForDate`, in chronological order. -/
def datesInYear (hire : Option ℤ) (payDate : ℤ) : List ℤ :=
  (datesInYearGo hire (yearOf payDate) 400 payDate).reverse

/-- What `buildYtdForDate` hands back for the target period. -/
structure YtdPayload where
  earnings : List EarningsLine
  deductions : List DeductionLine
  totals : TotalsLine
  leaveBalances : Option LeaveBalances
deriving DecidableEq

/-- Vacation hours accrued after `periodCount` periods of the year. -/
def vacationAccruedAt (periodCount : ℕ) : ℚ :=
  roundCurrency (min VACATION_CAP (VACATION_ACCRUAL_PER_PERIOD * (periodCount : ℚ)))

/-- Sick hours accrued after `periodCount` periods of the year. -/
def sickAccruedAt (periodCount : ℕ) : ℚ :=
  roundCurrency (min SICK_CAP (SICK_ACCRUAL_PER_PERIOD * (periodCount : ℚ)))

/-- The target-capture block of the replay loop: build the payload for one
period from its data, its index and the post-period state.  The leave
block uses `periodCount = index + 1`. -/
def capturePayload (inp : Inputs) (index : ℕ) (r : PeriodResult) (st : YtdState) : YtdPayload :=
  { earnings := r.earningsWithYtd
    deductions := r.deductionsWithYtd
    totals :=
      ⟨r.current.grossPayCurrent, r.totalDeductionsCurrent, r.netPayCurrent,
       st.gross, st.deductions, st.net⟩
    leaveBalances :=
      if inp.payType = SALARY then
        some ⟨vacationAccruedAt (index + 1), 0, vacationAccruedAt (index + 1),
          sickAccruedAt (index + 1), 0, sickAccruedAt (index + 1)⟩
      else none }

/-- The true-up constants of `buildYtdForDate`, as a function of the number
of periods in the year. -/
def trueUpOf (annualSalary : ℚ) (salaryPeriodsInYear : ℕ) : ℚ × ℚ :=
  let salaryPerPeriod := annualSalary / 26
  let salaryPerPeriodRounded := roundCurrency salaryPerPeriod
  let salaryTargetTotal := roundCurrency (salaryPerPeriod * (salaryPeriodsInYear : ℚ))
  let salaryPriorTotal :=
    roundCurrency (salaryPerPeriodRounded * ((max ((salaryPeriodsInYear : ℤ) - 1) 0 : ℤ) : ℚ))
  (salaryTargetTotal, roundCurrency (salaryTargetTotal - salaryPriorTotal))

/-- `buildYtdForDate` from the source: replay the calendar year up to the
target pay date and emit the payload captured at the target (`none` when no
period of the year reaches it). -/
def buildYtdForDate (inp : Inputs) (payDate : ℤ) : Option YtdPayload :=
  let dates := datesInYear inp.hireDate payDate
  let tu := trueUpOf inp.annualSalary dates.length
  let snaps := replaySnapshots inp tu.1 tu.2 dates initialYtd
  (dates.enum.zip snaps).foldl
    (fun acc x =>
      if x.1.2 = payDate then some (capturePayload inp x.1.1 x.2.1 x.2.2) else acc)
    none

/-! ## The `computed` memo (scheduler and assembler) -/

/-- Result of the `computed` memo. -/
structure ComputedResult where
  warnings : List String
  paystubs : List PaystubDraft
  skipped : ℕ
deriving DecidableEq

/-- Non-Friday warning text from the source. -/
def fridayWarning : String :=
  "Most recent pay date is not a Friday. Schedule assumes Friday pay dates."

/-- Skipped-periods warning text from the source. -/
def skipWarningMsg (skipped : ℕ) : String :=
  "Skipped " ++ toString skipped ++ " pay period(s) before the hire date."

/-- The body of the schedule loop of `computed` for one candidate pay
date: skip it when its period end precedes the hire date, otherwise
assemble the draft from the `buildYtdForDate` payload. -/
def emitDraft (inp : Inputs) (payDate : ℤ) : Option PaystubDraft :=
  if shouldSkip inp.hireDate payDate then none
  else
    (buildYtdForDate inp payDate).map (fun payload =>
      { pay_date := payDate
        pay_period_start := addDays (addDays payDate (-5)) (-13)
        pay_period_end := addDays payDate (-5)
        earnings := payload.earnings
        deductions := payload.deductions
        totals := payload.totals
        leave_balances := payload.leaveBalances })

/-- The candidate schedule of `computed`: `count` dates spaced 14 days
backward from the most recent pay date, sorted ascending. -/
def scheduledPayDates (payDateInput : ℤ) (count : ℕ) : List ℤ :=
  List.insertionSort (· ≤ ·)
    ((List.range count).map (fun i : ℕ => addDays payDateInput (-14 * (i : ℤ))))

/-- `computed` from the source: schedule the requested candidate pay dates,
drop and count pre-hire ones, and assemble one draft per remaining date. -/
def computed (inp : Inputs) : ComputedResult :=
  match inp.mostRecentPayDate with
  | none => ⟨[], [], 0⟩
  | some payDateInput =>
    if inp.paystubCount = 0 then ⟨[], [], 0⟩
    else
      let fridayWarnings := if dayOfWeek payDateInput ≠ 5 then [fridayWarning] else []
      let payDates := scheduledPayDates payDateInput inp.paystubCount
      let paystubs := payDates.filterMap (emitDraft inp)
      let skipped := (payDates.filter (fun payDate => shouldSkip inp.hireDate payDate)).length
      ⟨fridayWarnings ++ (if skipped > 0 then [skipWarningMsg skipped] else []),
       paystubs, skipped⟩

/-- The `useEffect` on `payType` (source lines 275–293): switching to
CONTRACTOR forces all withholding/benefit toggles off (their checkboxes are
also disabled); any other pay type re-enables them, with health and 401(k)
only for SALARY. -/
def applyPayTypeEffect (inp : Inputs) : Inputs :=
  if inp.payType = CONTRACTOR then
    { inp with
      includeFederal := false
      includeSocialSecurity := false
      includeMedicare := false
      includePit := false
      includeSdi := false
      includeHealth := false
      include401k := false }
  else
    { inp with
      includeFederal := true
      includeSocialSecurity := true
      includeMedicare := true
      includePit := true
      includeSdi := true
      includeHealth := decide (inp.payType = SALARY)
      include401k := decide (inp.payType = SALARY) }

/-! ## Basic lemmas about the embedding -/

theorem buildCurrentLines_grossPayCurrent (inp : Inputs) (p : ℤ) (b : ℚ) (o : Option ℚ) :
    (buildCurrentLines inp p b o).grossPayCurrent = grossPayCurrentOf inp b o := rfl

theorem buildCurrentLines_earningsBase (inp : Inputs) (p : ℤ) (b : ℚ) (o : Option ℚ) :
    (buildCurrentLines inp p b o).earningsBase = earningsBaseOf inp b o := rfl

theorem buildCurrentLines_preTaxFederal (inp : Inputs) (p : ℤ) (b : ℚ) (o : Option ℚ) :
    (buildCurrentLines inp p b o).preTaxFederal =
      roundCurrency (preTax401kOf inp (grossPayCurrentOf inp b o) + preTaxHealthOf inp) := rfl

theorem buildCurrentLines_preTaxFica (inp : Inputs) (p : ℤ) (b : ℚ) (o : Option ℚ) :
    (buildCurrentLines inp p b o).preTaxFica = preTaxHealthOf inp := rfl

theorem buildCurrentLines_preTaxSdi (inp : Inputs) (p : ℤ) (b : ℚ) (o : Option ℚ) :
    (buildCurrentLines inp p b o).preTaxSdi = preTaxHealthOf inp := rfl

theorem isCents_grossPayCurrentOf (inp : Inputs) (b : ℚ) (o : Option ℚ) :
    IsCents (grossPayCurrentOf inp b o) := isCents_roundCurrency _

theorem isCents_preTax401kOf (inp : Inputs) (g : ℚ) : IsCents (preTax401kOf inp g) := by
  unfold preTax401kOf
  split
  · exact isCents_roundCurrency _
  · exact isCents_zero

theorem isCents_preTaxHealthOf (inp : Inputs) : IsCents (preTaxHealthOf inp) := by
  unfold preTaxHealthOf
  split
  · exact isCents_roundCurrency _
  · exact isCents_zero

theorem isCents_calculatePitTax (x : ℚ) : IsCents (calculatePitTax x) := by
  unfold calculatePitTax
  split
  · exact isCents_zero
  · split
    · exact isCents_zero
    · exact isCents_roundCurrency _

theorem calculatePitTax_nonpos {x : ℚ} (h : x ≤ 0) : calculatePitTax x = 0 := by
  unfold calculatePitTax
  simp [h]

theorem isCents_periodTaxableFederal (inp : Inputs) (a b : ℚ) (d : ℤ) :
    IsCents (periodTaxableFederal inp a b d) := by
  unfold periodTaxableFederal
  exact IsCents.max isCents_zero
    (IsCents.sub (isCents_grossPayCurrentOf _ _ _) (isCents_roundCurrency _))

theorem isCents_periodPitCurrent (inp : Inputs) (a b : ℚ) (d : ℤ) (y : ℚ) :
    IsCents (periodPitCurrent inp a b d y) :=
  IsCents.max isCents_zero (IsCents.sub (isCents_calculatePitTax _) (isCents_calculatePitTax _))

/-! ## Replay state and snapshot lemmas -/

/-- The state-only part of the replay. -/
def replayState (inp : Inputs) (a b : ℚ) : List ℤ → YtdState → YtdState
  | [], st => st
  | d :: rest, st => replayState inp a b rest (replayStep inp a b d st).2

theorem replaySnapshots_length (inp : Inputs) (a b : ℚ) (l : List ℤ) (st : YtdState) :
    (replaySnapshots inp a b l st).length = l.length := by
  induction l generalizing st with
  | nil => rfl
  | cons d rest ih => simp [replaySnapshots, ih]

theorem replaySnapshots_append (inp : Inputs) (a b : ℚ) (l₁ l₂ : List ℤ) (st : YtdState) :
    replaySnapshots inp a b (l₁ ++ l₂) st =
      replaySnapshots inp a b l₁ st ++ replaySnapshots inp a b l₂ (replayState inp a b l₁ st) := by
  induction l₁ generalizing st with
  | nil => rfl
  | cons d rest ih => simp [replaySnapshots, replayState, ih]

/-- Every snapshot is a `replayStep` from a state reachable from the start
state; any property preserved by `replayStep` holds of that state. -/
theorem replaySnapshots_mem_invariant (inp : Inputs) (a b : ℚ) (P : YtdState → Prop)
    (hstep : ∀ d st, P st → P (replayStep inp a b d st).2) :
    ∀ (l : List ℤ) (st : YtdState), P st →
      ∀ x ∈ replaySnapshots inp a b l st,
        ∃ d st0, d ∈ l ∧ P st0 ∧ x = replayStep inp a b d st0 := by
  intro l
  induction l with
  | nil => intro st _ x hx; simp [replaySnapshots] at hx
  | cons d rest ih =>
    intro st hst x hx
    simp only [replaySnapshots, List.mem_cons] at hx
    rcases hx with hx | hx
    · exact ⟨d, st, by simp, hst, hx⟩
    · obtain ⟨d', st0, hd', hP, hx'⟩ := ih _ (hstep d st hst) x hx
      exact ⟨d', st0, by simp [hd'], hP, hx'⟩

/-- The per-period taxable wages of the replay do not depend on the running
state. -/
theorem replaySnapshots_taxables (inp : Inputs) (a b : ℚ) (l : List ℤ) (st : YtdState) :
    (replaySnapshots inp a b l st).map (fun s => s.1.taxableFederal) =
      l.map (periodTaxableFederal inp a b) := by
  induction l generalizing st with
  | nil => rfl
  | cons d rest ih => simp [replaySnapshots, replayStep, ih]

/-! ## Capture lemmas for `buildYtdForDate` -/

theorem foldl_overwrite_some {α β : Type} (p : α → Prop) [DecidablePred p] (f : α → β) :
    ∀ (l : List α) (init : Option β) (r : β),
      l.foldl (fun acc x => if p x then some (f x) else acc) init = some r →
      (∃ x ∈ l, p x ∧ r = f x) ∨ init = some r := by
  intro l
  induction l with
  | nil => intro init r h; exact Or.inr h
  | cons y rest ih =>
    intro init r h
    simp only [List.foldl_cons] at h
    rcases ih _ r h with ⟨x, hx, hpx, hr⟩ | hinit
    · exact Or.inl ⟨x, by simp [hx], hpx, hr⟩
    · by_cases hy : p y
      · rw [if_pos hy] at hinit
        exact Or.inl ⟨y, by simp, hy, (Option.some_inj.mp hinit).symm⟩
      · rw [if_neg hy] at hinit
        exact Or.inr hinit

theorem foldl_overwrite_last {α β : Type} (p : α → Prop) [DecidablePred p] (f : α → β)
    (l : List α) (x : α) (init : Option β) (hx : p x) :
    (l ++ [x]).foldl (fun acc y => if p y then some (f y) else acc) init = some (f x) := by
  rw [List.foldl_append]
  simp [hx]

theorem replayStep_fst_current (inp : Inputs) (a b : ℚ) (d : ℤ) (st : YtdState) :
    (replayStep inp a b d st).1.current = periodCurrent inp a b d := rfl

theorem replayStep_fst_taxableFederal (inp : Inputs) (a b : ℚ) (d : ℤ) (st : YtdState) :
    (replayStep inp a b d st).1.taxableFederal = periodTaxableFederal inp a b d := rfl

theorem replayStep_fst_taxableFica (inp : Inputs) (a b : ℚ) (d : ℤ) (st : YtdState) :
    (replayStep inp a b d st).1.taxableFica = periodTaxableFica inp a b d := rfl

theorem replayStep_fst_taxableSdi (inp : Inputs) (a b : ℚ) (d : ℤ) (st : YtdState) :
    (replayStep inp a b d st).1.taxableSdi = periodTaxableSdi inp a b d := rfl

theorem replayStep_fst_pitTaxableBefore (inp : Inputs) (a b : ℚ) (d : ℤ) (st : YtdState) :
    (replayStep inp a b d st).1.pitTaxableBefore = st.pitTaxable := rfl

theorem replayStep_fst_pitCurrent (inp : Inputs) (a b : ℚ) (d : ℤ) (st : YtdState) :
    (replayStep inp a b d st).1.pitCurrent = periodPitCurrent inp a b d st.pitTaxable := rfl

theorem replayStep_fst_deductionsBase (inp : Inputs) (a b : ℚ) (d : ℤ) (st : YtdState) :
    (replayStep inp a b d st).1.deductionsBase =
      periodDeductionsBase inp a b d st.pitTaxable := rfl

theorem replayStep_fst_totalDeductions (inp : Inputs) (a b : ℚ) (d : ℤ) (st : YtdState) :
    (replayStep inp a b d st).1.totalDeductionsCurrent =
      periodTotalDeductions inp a b d st.pitTaxable := rfl

theorem replayStep_fst_netPayCurrent (inp : Inputs) (a b : ℚ) (d : ℤ) (st : YtdState) :
    (replayStep inp a b d st).1.netPayCurrent = periodNetPay inp a b d st.pitTaxable := rfl

theorem replayStep_fst_earningsWithYtd (inp : Inputs) (a b : ℚ) (d : ℤ) (st : YtdState) :
    (replayStep inp a b d st).1.earningsWithYtd =
      (attachEarningsYtd st.earnings (periodCurrent inp a b d).earningsBase).1 := rfl

theorem replayStep_fst_deductionsWithYtd (inp : Inputs) (a b : ℚ) (d : ℤ) (st : YtdState) :
    (replayStep inp a b d st).1.deductionsWithYtd =
      (attachDeductionsYtd st.deductionLines (periodDeductionsBase inp a b d st.pitTaxable)).1 := rfl

theorem replayStep_snd_gross (inp : Inputs) (a b : ℚ) (d : ℤ) (st : YtdState) :
    (replayStep inp a b d st).2.gross =
      roundCurrency (st.gross + (periodCurrent inp a b d).grossPayCurrent) := rfl

theorem replayStep_snd_deductions (inp : Inputs) (a b : ℚ) (d : ℤ) (st : YtdState) :
    (replayStep inp a b d st).2.deductions =
      roundCurrency (st.deductions + periodTotalDeductions inp a b d st.pitTaxable) := rfl

theorem replayStep_snd_net (inp : Inputs) (a b : ℚ) (d : ℤ) (st : YtdState) :
    (replayStep inp a b d st).2.net =
      roundCurrency (st.net + periodNetPay inp a b d st.pitTaxable) := rfl

theorem replayStep_snd_pitTaxable (inp : Inputs) (a b : ℚ) (d : ℤ) (st : YtdState) :
    (replayStep inp a b d st).2.pitTaxable =
      if inp.includePit then roundCurrency (st.pitTaxable + periodTaxableFederal inp a b d)
      else st.pitTaxable := rfl

/-- The helper parameters `buildYtdForDate` computes from its schedule. -/
def ytdParams (inp : Inputs) (payDate : ℤ) : ℚ × ℚ :=
  trueUpOf inp.annualSalary (datesInYear inp.hireDate payDate).length

theorem buildYtdForDate_eq_some {inp : Inputs} {payDate : ℤ} {payload : YtdPayload}
    (h : buildYtdForDate inp payDate = some payload) :
    ∃ i r s,
      (r, s) ∈ replaySnapshots inp (ytdParams inp payDate).1 (ytdParams inp payDate).2
        (datesInYear inp.hireDate payDate) initialYtd ∧
      payload = capturePayload inp i r s := by
  simp only [buildYtdForDate] at h
  rcases foldl_overwrite_some
      (fun x : (ℕ × ℤ) × (PeriodResult × YtdState) => x.1.2 = payDate)
      (fun x : (ℕ × ℤ) × (PeriodResult × YtdState) => capturePayload inp x.1.1 x.2.1 x.2.2)
      _ none payload h with
    ⟨x, hx, _, hr⟩ | hnone
  · obtain ⟨⟨i, d⟩, r, s⟩ := x
    refine ⟨i, r, s, ?_, hr⟩
    exact (List.of_mem_zip hx).2
  · exact absurd hnone (by simp)

theorem buildYtdForDate_last (inp : Inputs) (payDate : ℤ) (ds : List ℤ) (a b : ℚ)
    (hds : datesInYear inp.hireDate payDate = ds ++ [payDate])
    (ha : a = (trueUpOf inp.annualSalary (ds.length + 1)).1)
    (hb : b = (trueUpOf inp.annualSalary (ds.length + 1)).2) :
    buildYtdForDate inp payDate =
      some (capturePayload inp ds.length
        (replayStep inp a b payDate (replayState inp a b ds initialYtd)).1
        (replayStep inp a b payDate (replayState inp a b ds initialYtd)).2) := by
  simp only [buildYtdForDate, hds, List.length_append, List.length_singleton]
  rw [← ha, ← hb]
  rw [replaySnapshots_append]
  have h2 : replaySnapshots inp a b [payDate] (replayState inp a b ds initialYtd) =
      [replayStep inp a b payDate (replayState inp a b ds initialYtd)] := rfl
  rw [h2, List.enum_append]
  have h1 : List.enumFrom ds.length [payDate] = [(ds.length, payDate)] := rfl
  rw [h1, List.zip_append (by simp [replaySnapshots_length])]
  have h3 : [(ds.length, payDate)].zip
      [replayStep inp a b payDate (replayState inp a b ds initialYtd)] =
      [((ds.length, payDate), replayStep inp a b payDate (replayState inp a b ds initialYtd))] := rfl
  rw [h3]
  exact foldl_overwrite_last
    (fun x : (ℕ × ℤ) × (PeriodResult × YtdState) => x.1.2 = payDate)
    (fun x : (ℕ × ℤ) × (PeriodResult × YtdState) => capturePayload inp x.1.1 x.2.1 x.2.2)
    _ _ _ rfl

/-- A target that is not cut by the hire date always produces a payload:
the walk pushes it first, so the capture succeeds. -/
theorem buildYtdForDate_isSome (inp : Inputs) (payDate : ℤ)
    (h : shouldSkip inp.hireDate payDate = false) :
    ∃ pl, buildYtdForDate inp payDate = some pl := by
  have hgo : datesInYearGo inp.hireDate (yearOf payDate) 400 payDate =
      payDate :: datesInYearGo inp.hireDate (yearOf payDate) 399 (addDays payDate (-14)) := by
    show (if yearOf payDate = yearOf payDate then
        if shouldSkip inp.hireDate payDate then []
        else payDate :: datesInYearGo inp.hireDate (yearOf payDate) 399 (addDays payDate (-14))
      else []) = _
    rw [if_pos rfl, if_neg (by simp [h])]
  have hds : datesInYear inp.hireDate payDate =
      (datesInYearGo inp.hireDate (yearOf payDate) 399 (addDays payDate (-14))).reverse ++
        [payDate] := by
    unfold datesInYear
    rw [hgo]
    simp
  exact ⟨_, buildYtdForDate_last inp payDate _ _ _ hds rfl rfl⟩

/-- Gross accumulated by one period. -/
def periodGross (inp : Inputs) (a b : ℚ) (date : ℤ) : ℚ :=
  (periodCurrent inp a b date).grossPayCurrent

theorem isCents_periodGross (inp : Inputs) (a b : ℚ) (d : ℤ) :
    IsCents (periodGross inp a b d) := isCents_grossPayCurrentOf _ _ _

/-- YTD gross after a replay is the exact sum of the per-period gross
amounts: cumulative rounding never drifts because every increment is an
exact number of cents. -/
theorem replayState_gross (inp : Inputs) (a b : ℚ) (l : List ℤ) (st : YtdState)
    (h : IsCents st.gross) :
    (replayState inp a b l st).gross = st.gross + (l.map (periodGross inp a b)).sum := by
  induction l generalizing st with
  | nil => simp [replayState]
  | cons d rest ih =>
    simp only [replayState]
    rw [ih _ (isCents_roundCurrency _), replayStep_snd_gross,
      roundCurrency_eq_self
        (show IsCents (st.gross + (periodCurrent inp a b d).grossPayCurrent) from
          h.add (isCents_grossPayCurrentOf inp _ _))]
    simp only [List.map_cons, List.sum_cons, periodGross]
    ring

/-- Characterization of the backward walk: if it stays in-year and un-cut
for `k` steps and stops at step `k`, it returns exactly those `k` dates. -/
theorem datesInYearGo_chain (hire : Option ℤ) (Y : ℤ) :
    ∀ (k fuel : ℕ) (D : ℤ), k < fuel →
      (∀ i : ℕ, i < k → yearOf (D - 14 * (i : ℤ)) = Y ∧
        shouldSkip hire (D - 14 * (i : ℤ)) = false) →
      (yearOf (D - 14 * (k : ℤ)) ≠ Y ∨ shouldSkip hire (D - 14 * (k : ℤ)) = true) →
      datesInYearGo hire Y fuel D = (List.range k).map (fun i : ℕ => D - 14 * (i : ℤ)) := by
  intro k
  induction k with
  | zero =>
    intro fuel D hf _ hstop
    obtain ⟨f, rfl⟩ : ∃ f, fuel = f + 1 := ⟨fuel - 1, by omega⟩
    show (if yearOf D = Y then
        if shouldSkip hire D then []
        else D :: datesInYearGo hire Y f (addDays D (-14))
      else []) = []
    rcases hstop with hstop | hstop
    · rw [if_neg (by simpa using hstop)]
    · by_cases hy : yearOf D = Y
      · rw [if_pos hy, if_pos (by simpa using hstop)]
      · rw [if_neg hy]
  | succ k ih =>
    intro fuel D hf hin hstop
    obtain ⟨f, rfl⟩ : ∃ f, fuel = f + 1 := ⟨fuel - 1, by omega⟩
    obtain ⟨h0y, h0s⟩ := hin 0 (Nat.succ_pos k)
    norm_num at h0y h0s
    show (if yearOf D = Y then
        if shouldSkip hire D then []
        else D :: datesInYearGo hire Y f (addDays D (-14))
      else []) = _
    rw [if_pos h0y, if_neg (by simp [h0s])]
    have hrec : datesInYearGo hire Y f (addDays D (-14)) =
        (List.range k).map (fun i : ℕ => (D - 14) - 14 * (i : ℤ)) := by
      apply ih f (D - 14) (by omega)
      · intro i hi
        have := hin (i + 1) (by omega)
        constructor
        · have h := this.1
          convert h using 2
          push_cast
          ring
        · have h := this.2
          convert h using 2
          push_cast
          ring
      · rcases hstop with hstop | hstop
        · refine Or.inl ?_
          convert hstop using 2
          push_cast
          ring
        · refine Or.inr ?_
          convert hstop using 2
          push_cast
          ring
    have hr : (List.range (k + 1)).map (fun i : ℕ => D - 14 * (i : ℤ)) =
        D :: (List.range k).map (fun i : ℕ => (D - 14) - 14 * (i : ℤ)) := by
      rw [List.range_succ_eq_map, List.map_cons, List.map_map]
      congr 1
      · norm_num
      · apply List.map_congr_left
        intro i _
        show D - 14 * ((i + 1 : ℕ) : ℤ) = (D - 14) - 14 * (i : ℤ)
        push_cast
        ring
    rw [hrec]
    exact hr.symm

theorem buildCurrentLines_deductionsBase (inp : Inputs) (p : ℤ) (b : ℚ) (o : Option ℚ) :
    (buildCurrentLines inp p b o).deductionsBase =
      (if inp.include401k && decide (inp.payType = SALARY) then
        [⟨"401(k) Contribution", preTax401kOf inp (grossPayCurrentOf inp b o)⟩] else []) ++
      (if inp.includeHealth then [⟨"Health Plan", preTaxHealthOf inp⟩] else []) ++
      (if decide (inp.payType = CONTRACTOR) && inp.includeContractorFee then
        [⟨"Contractor Fee",
          roundCurrency (grossPayCurrentOf inp b o * inp.contractorFeeRate / 100)⟩]
       else []) := rfl

/-- Attaching YTD amounts preserves each line's name and current amount. -/
theorem attachDeductionsYtd_mem {m : String → ℚ} {l : List DeductionBase} :
    ∀ dl ∈ (attachDeductionsYtd m l).1,
      ∃ e ∈ l, dl.deduction_name = e.deduction_name ∧ dl.current_amount = e.current_amount := by
  induction l generalizing m with
  | nil => intro dl h; simp [attachDeductionsYtd] at h
  | cons e rest ih =>
    intro dl h
    simp only [attachDeductionsYtd, List.mem_cons] at h
    rcases h with h | h
    · exact ⟨e, by simp, by simp [h]⟩
    · obtain ⟨e', he', h1, h2⟩ := ih dl h
      exact ⟨e', by simp [he'], h1, h2⟩

theorem attachDeductionsYtd_names (m : String → ℚ) (l : List DeductionBase) :
    ((attachDeductionsYtd m l).1).map (fun dl => dl.deduction_name) =
      l.map (fun e => e.deduction_name) := by
  induction l generalizing m with
  | nil => rfl
  | cons e rest ih => simp [attachDeductionsYtd, ih]

/-- Extract the payload equalities from membership in the computed
paystubs. -/
theorem mem_computed_paystubs {inp : Inputs} {d : PaystubDraft}
    (hd : d ∈ (computed inp).paystubs) :
    ∃ payDate payload, buildYtdForDate inp payDate = some payload ∧
      shouldSkip inp.hireDate payDate = false ∧
      d.pay_date = payDate ∧
      d.earnings = payload.earnings ∧ d.deductions = payload.deductions ∧
      d.totals = payload.totals ∧ d.leave_balances = payload.leaveBalances := by
  cases hmr : inp.mostRecentPayDate with
  | none => simp [computed, hmr] at hd
  | some M =>
    by_cases hc : inp.paystubCount = 0
    · simp [computed, hmr, hc] at hd
    · simp only [computed, hmr, if_neg hc, List.mem_filterMap] at hd
      obtain ⟨p, _, hfp⟩ := hd
      unfold emitDraft at hfp
      by_cases hs : shouldSkip inp.hireDate p
      · rw [if_pos hs] at hfp; exact absurd hfp (by simp)
      · rw [if_neg hs] at hfp
        rw [Option.map_eq_some'] at hfp
        obtain ⟨payload, h1, h2⟩ := hfp
        refine ⟨p, payload, h1, by simpa using hs, ?_⟩
        rw [← h2]
        exact ⟨rfl, rfl, rfl, rfl, rfl⟩

/-- The running-total invariant maintained by the replay: the YTD gross,
deductions and net are exact cents and satisfy the net identity. -/
def StInv (st : YtdState) : Prop :=
  IsCents st.gross ∧ IsCents st.deductions ∧ IsCents st.net ∧
    st.net = st.gross - st.deductions

theorem stInv_initial : StInv initialYtd :=
  ⟨isCents_zero, isCents_zero, isCents_zero, by norm_num [initialYtd]⟩

theorem periodNetPay_eq (inp : Inputs) (a b : ℚ) (d : ℤ) (y : ℚ) :
    periodNetPay inp a b d y =
      (periodCurrent inp a b d).grossPayCurrent - periodTotalDeductions inp a b d y := by
  unfold periodNetPay
  exact roundCurrency_eq_self
    (show IsCents ((periodCurrent inp a b d).grossPayCurrent - periodTotalDeductions inp a b d y)
      from (isCents_grossPayCurrentOf inp _ _).sub (isCents_roundCurrency _))

theorem stInv_step (inp : Inputs) (a b : ℚ) (d : ℤ) {st : YtdState} (h : StInv st) :
    StInv (replayStep inp a b d st).2 := by
  obtain ⟨hg, hd', hn, heq⟩ := h
  refine ⟨isCents_roundCurrency _, isCents_roundCurrency _, isCents_roundCurrency _, ?_⟩
  rw [replayStep_snd_gross, replayStep_snd_deductions, replayStep_snd_net]
  rw [roundCurrency_eq_self
      (show IsCents (st.gross + (periodCurrent inp a b d).grossPayCurrent) from
        hg.add (isCents_grossPayCurrentOf inp _ _)),
    roundCurrency_eq_self
      (show IsCents (st.deductions + periodTotalDeductions inp a b d st.pitTaxable) from
        hd'.add (isCents_roundCurrency _)),
    roundCurrency_eq_self
      (show IsCents (st.net + periodNetPay inp a b d st.pitTaxable) from
        hn.add (isCents_roundCurrency _)),
    periodNetPay_eq, heq]
  ring

/-- C3: for every generated `PaystubDraft`, `net_pay_current` equals
`gross_pay_current - total_deductions_current`, and `net_pay_ytd` equals
`gross_pay_ytd - total_deductions_ytd`, the YTD figures being the
cumulatively rounded sums of the per-period figures. -/
theorem net_invariant (inp : Inputs) (d : PaystubDraft)
    (hd : d ∈ (computed inp).paystubs) :
    d.totals.net_pay_current =
      d.totals.gross_pay_current - d.totals.total_deductions_current ∧
    d.totals.net_pay_ytd = d.totals.gross_pay_ytd - d.totals.total_deductions_ytd := by
  obtain ⟨p, payload, hbp, _, _, _, _, ht, _⟩ := mem_computed_paystubs hd
  obtain ⟨i, r, s, hmem, hcap⟩ := buildYtdForDate_eq_some hbp
  obtain ⟨d', st0, _, hinv, heq⟩ := replaySnapshots_mem_invariant inp _ _ StInv
    (fun d'' st'' h => stInv_step inp _ _ d'' h) _ initialYtd stInv_initial _ hmem
  have hr : r = (replayStep inp (ytdParams inp p).1 (ytdParams inp p).2 d' st0).1 := by
    rw [← heq]
  have hs : s = (replayStep inp (ytdParams inp p).1 (ytdParams inp p).2 d' st0).2 := by
    rw [← heq]
  have hsinv : StInv s := hs ▸ stInv_step inp _ _ d' hinv
  rw [ht, hcap]
  constructor
  · show r.netPayCurrent = r.current.grossPayCurrent - r.totalDeductionsCurrent
    rw [hr, replayStep_fst_netPayCurrent, replayStep_fst_current,
      replayStep_fst_totalDeductions, periodNetPay_eq]
  · show s.net = s.gross - s.deductions
    exact hsinv.2.2.2

/-- Snapshot membership without an invariant. -/
theorem replaySnapshots_mem (inp : Inputs) (a b : ℚ) {l : List ℤ} {st : YtdState}
    {x : PeriodResult × YtdState} (hx : x ∈ replaySnapshots inp a b l st) :
    ∃ d st0, d ∈ l ∧ x = replayStep inp a b d st0 := by
  obtain ⟨d, st0, hd, _, hx'⟩ := replaySnapshots_mem_invariant inp a b (fun _ => True)
    (fun _ _ _ => trivial) l st trivial x hx
  exact ⟨d, st0, hd, hx'⟩

/-- C10: the PIT-taxable wages added to the running progressive-tax base
each period equal `max(0, gross - 401(k) contribution - health premium)`
(the federal taxable base), while the FICA and SDI bases subtract only the
health premium. -/
theorem pit_base_matches_federal_base (inp : Inputs) (a b : ℚ) (date : ℤ) (st : YtdState)
    (hp : inp.includePit = true) :
    (replayStep inp a b date st).1.taxableFederal =
      max 0 ((replayStep inp a b date st).1.current.grossPayCurrent -
        preTax401kOf inp (replayStep inp a b date st).1.current.grossPayCurrent -
        preTaxHealthOf inp) ∧
    (replayStep inp a b date st).2.pitTaxable =
      roundCurrency (st.pitTaxable + (replayStep inp a b date st).1.taxableFederal) ∧
    (replayStep inp a b date st).1.taxableFica =
      max 0 ((replayStep inp a b date st).1.current.grossPayCurrent - preTaxHealthOf inp) ∧
    (replayStep inp a b date st).1.taxableSdi =
      max 0 ((replayStep inp a b date st).1.current.grossPayCurrent - preTaxHealthOf inp) := by
  refine ⟨?_, ?_, rfl, rfl⟩
  · rw [replayStep_fst_taxableFederal, replayStep_fst_current]
    unfold periodTaxableFederal
    simp only [periodCurrent, buildCurrentLines_preTaxFederal, buildCurrentLines_grossPayCurrent]
    rw [roundCurrency_eq_self
      ((isCents_preTax401kOf inp _).add (isCents_preTaxHealthOf inp)), sub_add_eq_sub_sub]
  · rw [replayStep_snd_pitTaxable, if_pos hp, replayStep_fst_taxableFederal]

/-- For a non-skipped target the year's walk pushes the target first, so
the target is the last entry of `datesInYear` and the payload is captured
at enumeration index `length - 1`: the capture is the one
`buildYtdForDate_last` describes, with the witness decomposition made
explicit. -/
theorem buildYtdForDate_capture (inp : Inputs) (payDate : ℤ)
    (h : shouldSkip inp.hireDate payDate = false) :
    ∃ ds : List ℤ,
      datesInYear inp.hireDate payDate = ds ++ [payDate] ∧
      buildYtdForDate inp payDate =
        some (capturePayload inp ds.length
          (replayStep inp (trueUpOf inp.annualSalary (ds.length + 1)).1
            (trueUpOf inp.annualSalary (ds.length + 1)).2 payDate
            (replayState inp (trueUpOf inp.annualSalary (ds.length + 1)).1
              (trueUpOf inp.annualSalary (ds.length + 1)).2 ds initialYtd)).1
          (replayStep inp (trueUpOf inp.annualSalary (ds.length + 1)).1
            (trueUpOf inp.annualSalary (ds.length + 1)).2 payDate
            (replayState inp (trueUpOf inp.annualSalary (ds.length + 1)).1
              (trueUpOf inp.annualSalary (ds.length + 1)).2 ds initialYtd)).2) := by
  have hgo : datesInYearGo inp.hireDate (yearOf payDate) 400 payDate =
      payDate :: datesInYearGo inp.hireDate (yearOf payDate) 399 (addDays payDate (-14)) := by
    show (if yearOf payDate = yearOf payDate then
        if shouldSkip inp.hireDate payDate then []
        else payDate :: datesInYearGo inp.hireDate (yearOf payDate) 399 (addDays payDate (-14))
      else []) = _
    rw [if_pos rfl, if_neg (by simp [h])]
  have hds : datesInYear inp.hireDate payDate =
      (datesInYearGo inp.hireDate (yearOf payDate) 399 (addDays payDate (-14))).reverse ++
        [payDate] := by
    unfold datesInYear
    rw [hgo]
    simp
  exact ⟨_, hds, buildYtdForDate_last inp payDate _ _ _ hds rfl rfl⟩

/-- C8: every SALARY paystub's leave block is
`accrued = round(min(cap, rate * periodCount))` taken at the draft's own
period count within the year — `periodCount = index + 1`, the number of
in-year periods up to and including its pay date, i.e. the length of
`datesInYear` at that date — with `used = 0` and `balance = accrued`; the
accrual formula never exceeds the caps (120 vacation / 80 sick), is
monotone in the period index, and is constant once the rate times the
index reaches the cap. -/
theorem leave_caps_and_monotone (inp : Inputs) (d : PaystubDraft)
    (hd : d ∈ (computed inp).paystubs) (hs : inp.payType = SALARY) :
    (1 ≤ (datesInYear inp.hireDate d.pay_date).length ∧
      d.leave_balances = some
        ⟨vacationAccruedAt (datesInYear inp.hireDate d.pay_date).length, 0,
         vacationAccruedAt (datesInYear inp.hireDate d.pay_date).length,
         sickAccruedAt (datesInYear inp.hireDate d.pay_date).length, 0,
         sickAccruedAt (datesInYear inp.hireDate d.pay_date).length⟩) ∧
    (∀ k : ℕ, vacationAccruedAt k ≤ 120 ∧ sickAccruedAt k ≤ 80) ∧
    (∀ k1 k2 : ℕ, k1 ≤ k2 →
      vacationAccruedAt k1 ≤ vacationAccruedAt k2 ∧ sickAccruedAt k1 ≤ sickAccruedAt k2) ∧
    (∀ k : ℕ, 39 ≤ k → vacationAccruedAt k = 120) ∧
    (∀ k : ℕ, 52 ≤ k → sickAccruedAt k = 80) := by
  have h120 : roundCurrency (120 : ℚ) = 120 :=
    roundCurrency_eq_self ⟨12000, by norm_num⟩
  have h80 : roundCurrency (80 : ℚ) = 80 :=
    roundCurrency_eq_self ⟨8000, by norm_num⟩
  refine ⟨?_, ?_, ?_, ?_, ?_⟩
  · obtain ⟨p, payload, hbp, hskip, hpd, _, _, _, hl⟩ := mem_computed_paystubs hd
    obtain ⟨ds, hds, hcap⟩ := buildYtdForDate_capture inp p hskip
    have hpl := Option.some_injective _ (hbp.symm.trans hcap)
    have hlen : (datesInYear inp.hireDate p).length = ds.length + 1 := by
      rw [hds]; simp
    constructor
    · rw [hpd, hlen]; omega
    · rw [hpd, hlen, hl, hpl]
      show (if inp.payType = SALARY then _ else none) = _
      rw [if_pos hs]
  · intro k
    constructor
    · calc vacationAccruedAt k ≤ roundCurrency 120 :=
        roundCurrency_mono (min_le_left _ _)
      _ = 120 := h120
    · calc sickAccruedAt k ≤ roundCurrency 80 :=
        roundCurrency_mono (min_le_left _ _)
      _ = 80 := h80
  · intro k1 k2 hk
    have hk' : (k1 : ℚ) ≤ (k2 : ℚ) := by exact_mod_cast hk
    constructor
    · apply roundCurrency_mono
      apply min_le_min le_rfl
      apply mul_le_mul_of_nonneg_left hk'
      norm_num [VACATION_ACCRUAL_PER_PERIOD]
    · apply roundCurrency_mono
      apply min_le_min le_rfl
      apply mul_le_mul_of_nonneg_left hk'
      norm_num [SICK_ACCRUAL_PER_PERIOD]
  · intro k hk
    have hk' : (39 : ℚ) ≤ (k : ℚ) := by exact_mod_cast hk
    unfold vacationAccruedAt VACATION_ACCRUAL_PER_PERIOD VACATION_CAP
    rw [min_eq_left (by nlinarith), h120]
  · intro k hk
    have hk' : (52 : ℚ) ≤ (k : ℚ) := by exact_mod_cast hk
    unfold sickAccruedAt SICK_ACCRUAL_PER_PERIOD SICK_CAP
    rw [min_eq_left (by nlinarith), h80]

/-- The seven deduction names a CONTRACTOR paystub must not contain. -/
def excludedContractorNames : List String :=
  ["401(k) Contribution", "Health Plan", "Federal Income Tax", "Social Security",
   "Medicare", "State Disability (SDI)", "State Income Tax (PIT)"]

/-- C6: for a CONTRACTOR input, whatever the prior toggle settings, the
payType effect forces the withholding/benefit toggles off and every
generated paystub has no 401(k), Health Plan, Federal, Social Security,
Medicare, SDI or PIT deduction line. -/
theorem contractor_exclusions (inp : Inputs) (hct : inp.payType = CONTRACTOR)
    (d : PaystubDraft) (hd : d ∈ (computed (applyPayTypeEffect inp)).paystubs)
    (dl : DeductionLine) (hdl : dl ∈ d.deductions) :
    dl.deduction_name ∉ excludedContractorNames := by
  have h401 : (applyPayTypeEffect inp).include401k = false := by
    simp [applyPayTypeEffect, hct]
  have hHealth : (applyPayTypeEffect inp).includeHealth = false := by
    simp [applyPayTypeEffect, hct]
  have hFed : (applyPayTypeEffect inp).includeFederal = false := by
    simp [applyPayTypeEffect, hct]
  have hSoc : (applyPayTypeEffect inp).includeSocialSecurity = false := by
    simp [applyPayTypeEffect, hct]
  have hMed : (applyPayTypeEffect inp).includeMedicare = false := by
    simp [applyPayTypeEffect, hct]
  have hSdi : (applyPayTypeEffect inp).includeSdi = false := by
    simp [applyPayTypeEffect, hct]
  have hPit : (applyPayTypeEffect inp).includePit = false := by
    simp [applyPayTypeEffect, hct]
  obtain ⟨p, payload, hbp, _, _, _, hded, _, _⟩ := mem_computed_paystubs hd
  obtain ⟨i, r, s, hmem, hcap⟩ := buildYtdForDate_eq_some hbp
  obtain ⟨d', st0, _, hx⟩ := replaySnapshots_mem _ _ _ hmem
  have hrd : r = (replayStep (applyPayTypeEffect inp) (ytdParams (applyPayTypeEffect inp) p).1
      (ytdParams (applyPayTypeEffect inp) p).2 d' st0).1 := by rw [← hx]
  have hdl' : dl ∈ r.deductionsWithYtd := by
    rw [← show payload.deductions = r.deductionsWithYtd from by rw [hcap]; rfl, ← hded]
    exact hdl
  rw [hrd, replayStep_fst_deductionsWithYtd] at hdl'
  obtain ⟨e, he, hname, _⟩ := attachDeductionsYtd_mem dl hdl'
  rw [hname]
  have he' : e.deduction_name = "Contractor Fee" := by
    simp only [periodDeductionsBase, taxDeductions, periodCurrent,
      buildCurrentLines_deductionsBase, h401, hHealth, hFed, hSoc, hMed, hSdi, hPit,
      Bool.false_and, Bool.and_false, if_false, List.append_nil, List.nil_append,
      Bool.false_eq_true] at he
    split at he
    · simp at he
      rw [he]
    · simp at he
  rw [he']
  decide

/-- The names of the deduction lines, in order, as a function of the
toggles: a disabled deduction is absent, and an enabled Federal line also
requires a positive federal bracket rate. -/
def expectedDeductionNames (inp : Inputs) : List String :=
  (if inp.include401k && decide (inp.payType = SALARY) then ["401(k) Contribution"] else []) ++
  (if inp.includeHealth then ["Health Plan"] else []) ++
  (if decide (inp.payType = CONTRACTOR) && inp.includeContractorFee then
    ["Contractor Fee"] else []) ++
  (if inp.includeFederal && decide (getFederalRate (annualizedPay inp) > 0) then
    ["Federal Income Tax"] else []) ++
  (if inp.includeSocialSecurity then ["Social Security"] else []) ++
  (if inp.includeMedicare then ["Medicare"] else []) ++
  (if inp.includeSdi then ["State Disability (SDI)"] else []) ++
  (if inp.includePit then ["State Income Tax (PIT)"] else [])

theorem periodDeductionsBase_names (inp : Inputs) (a b : ℚ) (date : ℤ) (y : ℚ) :
    (periodDeductionsBase inp a b date y).map (fun e => e.deduction_name) =
      expectedDeductionNames inp := by
  simp only [periodDeductionsBase, taxDeductions, periodCurrent,
    buildCurrentLines_deductionsBase, expectedDeductionNames, List.map_append,
    apply_ite (List.map (fun e : DeductionBase => e.deduction_name))]
  simp

/-- C9 (amended): the deduction lines of every generated paystub are
exactly the enabled ones, in the fixed priority order; a disabled
deduction is absent rather than zeroed, and the Federal Income Tax line
additionally requires a positive federal bracket rate. -/
theorem deduction_names_order (inp : Inputs) (d : PaystubDraft)
    (hd : d ∈ (computed inp).paystubs) :
    d.deductions.map (fun dl => dl.deduction_name) = expectedDeductionNames inp := by
  obtain ⟨p, payload, hbp, _, _, _, hded, _, _⟩ := mem_computed_paystubs hd
  obtain ⟨i, r, s, hmem, hcap⟩ := buildYtdForDate_eq_some hbp
  obtain ⟨d', st0, _, hx⟩ := replaySnapshots_mem _ _ _ hmem
  have hrd : r = (replayStep inp (ytdParams inp p).1 (ytdParams inp p).2 d' st0).1 := by
    rw [← hx]
  have hded' : d.deductions = r.deductionsWithYtd := by
    rw [hded, hcap]; rfl
  rw [hded', hrd, replayStep_fst_deductionsWithYtd, attachDeductionsYtd_names,
    periodDeductionsBase_names]

theorem inRange_iff (x lo : ℚ) (hi : Option ℚ) :
    inRange x lo hi = true ↔ (lo ≤ x ∧ ∀ m ∈ hi, x ≤ m) := by
  cases hi <;> simp [inRange]

/-- The four one-unit gaps between consecutive federal brackets. -/
def federalGap (x : ℚ) : Prop :=
  (48475 < x ∧ x < 48476) ∨ (103350 < x ∧ x < 103351) ∨
  (197300 < x ∧ x < 197301) ∨ (250525 < x ∧ x < 250526)

/-- C4 (amended): for every non-negative annualized pay outside the four
one-unit gaps between consecutive brackets, `getFederalRate` finds a
bracket whose interval contains the value and returns its rate; for a pay
inside a gap no bracket matches and the fallback 0 is returned, so the
fallback does occur despite the infinite top bracket. -/
theorem federal_bracket_totality (x : ℚ) (hx : 0 ≤ x) :
    (¬ federalGap x →
      ∃ b ∈ FEDERAL_BRACKETS, (b.min ≤ x ∧ ∀ m ∈ b.max, x ≤ m) ∧ getFederalRate x = b.rate) ∧
    (federalGap x →
      FEDERAL_BRACKETS.find? (fun e => inRange x e.min e.max) = none ∧
        getFederalRate x = 0) := by
  by_cases h1 : x ≤ 48475
  · have b0 : inRange x 0 (some 48475) = true := by simp [inRange, hx, h1]
    have hng : ¬ federalGap x := by
      unfold federalGap; push_neg
      exact ⟨fun h => by linarith, fun h => by linarith, fun h => by linarith,
        fun h => by linarith⟩
    refine ⟨fun _ => ⟨⟨0, some 48475, 12⟩, by simp [FEDERAL_BRACKETS], ⟨hx, by simp [h1]⟩, ?_⟩,
      fun hg => absurd hg hng⟩
    simp [getFederalRate, FEDERAL_BRACKETS, List.find?, b0]
  · push_neg at h1
    by_cases h2 : x < 48476
    · have b0 : inRange x 0 (some 48475) = false := by
        simp [inRange]; intro _; linarith
      have b1 : inRange x 48476 (some 103350) = false := by
        simp [inRange]; intro h; linarith
      have b2 : inRange x 103351 (some 197300) = false := by
        simp [inRange]; intro h; linarith
      have b3 : inRange x 197301 (some 250525) = false := by
        simp [inRange]; intro h; linarith
      have b4 : inRange x 250526 none = false := by
        simp [inRange]; linarith
      have hg : federalGap x := Or.inl ⟨h1, h2⟩
      refine ⟨fun hng => absurd hg hng, fun _ => ?_⟩
      constructor
      · simp [FEDERAL_BRACKETS, List.find?, b0, b1, b2, b3, b4]
      · simp [getFederalRate, FEDERAL_BRACKETS, List.find?, b0, b1, b2, b3, b4]
    · push_neg at h2
      by_cases h3 : x ≤ 103350
      · have b0 : inRange x 0 (some 48475) = false := by
          simp [inRange]; intro _; linarith
        have b1 : inRange x 48476 (some 103350) = true := by simp [inRange, h2, h3]
        have hng : ¬ federalGap x := by
          unfold federalGap; push_neg
          exact ⟨fun h => by linarith, fun h => by linarith, fun h => by linarith,
            fun h => by linarith⟩
        refine ⟨fun _ => ⟨⟨48476, some 103350, 22⟩, by simp [FEDERAL_BRACKETS],
          ⟨h2, by simp [h3]⟩, ?_⟩, fun hg => absurd hg hng⟩
        simp [getFederalRate, FEDERAL_BRACKETS, List.find?, b0, b1]
      · push_neg at h3
        by_cases h4 : x < 103351
        · have b0 : inRange x 0 (some 48475) = false := by
            simp [inRange]; intro _; linarith
          have b1 : inRange x 48476 (some 103350) = false := by
            simp [inRange]; intro h; linarith
          have b2 : inRange x 103351 (some 197300) = false := by
            simp [inRange]; intro h; linarith
          have b3 : inRange x 197301 (some 250525) = false := by
            simp [inRange]; intro h; linarith
          have b4 : inRange x 250526 none = false := by
            simp [inRange]; linarith
          have hg : federalGap x := Or.inr (Or.inl ⟨h3, h4⟩)
          refine ⟨fun hng => absurd hg hng, fun _ => ?_⟩
          constructor
          · simp [FEDERAL_BRACKETS, List.find?, b0, b1, b2, b3, b4]
          · simp [getFederalRate, FEDERAL_BRACKETS, List.find?, b0, b1, b2, b3, b4]
        · push_neg at h4
          by_cases h5 : x ≤ 197300
          · have b0 : inRange x 0 (some 48475) = false := by
              simp [inRange]; intro _; linarith
            have b1 : inRange x 48476 (some 103350) = false := by
              simp [inRange]; intro h; linarith
            have b2 : inRange x 103351 (some 197300) = true := by simp [inRange, h4, h5]
            have hng : ¬ federalGap x := by
              unfold federalGap; push_neg
              exact ⟨fun h => by linarith, fun h => by linarith, fun h => by linarith,
                fun h => by linarith⟩
            refine ⟨fun _ => ⟨⟨103351, some 197300, 24⟩, by simp [FEDERAL_BRACKETS],
              ⟨h4, by simp [h5]⟩, ?_⟩, fun hg => absurd hg hng⟩
            simp [getFederalRate, FEDERAL_BRACKETS, List.find?, b0, b1, b2]
          · push_neg at h5
            by_cases h6 : x < 197301
            · have b0 : inRange x 0 (some 48475) = false := by
                simp [inRange]; intro _; linarith
              have b1 : inRange x 48476 (some 103350) = false := by
                simp [inRange]; intro h; linarith
              have b2 : inRange x 103351 (some 197300) = false := by
                simp [inRange]; intro h; linarith
              have b3 : inRange x 197301 (some 250525) = false := by
                simp [inRange]; intro h; linarith
              have b4 : inRange x 250526 none = false := by
                simp [inRange]; linarith
              have hg : federalGap x := Or.inr (Or.inr (Or.inl ⟨h5, h6⟩))
              refine ⟨fun hng => absurd hg hng, fun _ => ?_⟩
              constructor
              · simp [FEDERAL_BRACKETS, List.find?, b0, b1, b2, b3, b4]
              · simp [getFederalRate, FEDERAL_BRACKETS, List.find?, b0, b1, b2, b3, b4]
            · push_neg at h6
              by_cases h7 : x ≤ 250525
              · have b0 : inRange x 0 (some 48475) = false := by
                  simp [inRange]; intro _; linarith
                have b1 : inRange x 48476 (some 103350) = false := by
                  simp [inRange]; intro h; linarith
                have b2 : inRange x 103351 (some 197300) = false := by
                  simp [inRange]; intro h; linarith
                have b3 : inRange x 197301 (some 250525) = true := by simp [inRange, h6, h7]
                have hng : ¬ federalGap x := by
                  unfold federalGap; push_neg
                  exact ⟨fun h => by linarith, fun h => by linarith, fun h => by linarith,
                    fun h => by linarith⟩
                refine ⟨fun _ => ⟨⟨197301, some 250525, 32⟩, by simp [FEDERAL_BRACKETS],
                  ⟨h6, by simp [h7]⟩, ?_⟩, fun hg => absurd hg hng⟩
                simp [getFederalRate, FEDERAL_BRACKETS, List.find?, b0, b1, b2, b3]
              · push_neg at h7
                by_cases h8 : x < 250526
                · have b0 : inRange x 0 (some 48475) = false := by
                    simp [inRange]; intro _; linarith
                  have b1 : inRange x 48476 (some 103350) = false := by
                    simp [inRange]; intro h; linarith
                  have b2 : inRange x 103351 (some 197300) = false := by
                    simp [inRange]; intro h; linarith
                  have b3 : inRange x 197301 (some 250525) = false := by
                    simp [inRange]; intro h; linarith
                  have b4 : inRange x 250526 none = false := by
                    simp [inRange]; linarith
                  have hg : federalGap x := Or.inr (Or.inr (Or.inr ⟨h7, h8⟩))
                  refine ⟨fun hng => absurd hg hng, fun _ => ?_⟩
                  constructor
                  · simp [FEDERAL_BRACKETS, List.find?, b0, b1, b2, b3, b4]
                  · simp [getFederalRate, FEDERAL_BRACKETS, List.find?, b0, b1, b2, b3, b4]
                · push_neg at h8
                  have b0 : inRange x 0 (some 48475) = false := by
                    simp [inRange]; intro _; linarith
                  have b1 : inRange x 48476 (some 103350) = false := by
                    simp [inRange]; intro h; linarith
                  have b2 : inRange x 103351 (some 197300) = false := by
                    simp [inRange]; intro h; linarith
                  have b3 : inRange x 197301 (some 250525) = false := by
                    simp [inRange]; intro h; linarith
                  have b4 : inRange x 250526 none = true := by simp [inRange, h8]
                  have hng : ¬ federalGap x := by
                    unfold federalGap; push_neg
                    exact ⟨fun h => by linarith, fun h => by linarith, fun h => by linarith,
                      fun h => by linarith⟩
                  refine ⟨fun _ => ⟨⟨250526, none, 32⟩, by simp [FEDERAL_BRACKETS],
                    ⟨h8, by simp⟩, ?_⟩, fun hg => absurd hg hng⟩
                  simp [getFederalRate, FEDERAL_BRACKETS, List.find?, b0, b1, b2, b3, b4]

theorem roundCurrency_periodPitCurrent (inp : Inputs) (a b : ℚ) (d : ℤ) (y : ℚ) :
    roundCurrency (periodPitCurrent inp a b d y) = periodPitCurrent inp a b d y :=
  roundCurrency_eq_self (isCents_periodPitCurrent inp a b d y)

/-- The PIT sum inequality / telescoping over a replay: the accumulated
per-period marginal PIT amounts always bound the progressive tax of the
accumulated taxable wages from below, with equality when no marginal delta
is clamped to zero. -/
theorem pit_fold (inp : Inputs) (a b : ℚ) (hp : inp.includePit = true) :
    ∀ (l : List ℤ) (st : YtdState), IsCents st.pitTaxable →
      (calculatePitTax (st.pitTaxable + (l.map (periodTaxableFederal inp a b)).sum) -
          calculatePitTax st.pitTaxable ≤
        ((replaySnapshots inp a b l st).map (fun s => roundCurrency s.1.pitCurrent)).sum) ∧
      ((∀ s ∈ replaySnapshots inp a b l st,
          calculatePitTax s.1.pitTaxableBefore ≤
            calculatePitTax (s.1.pitTaxableBefore + s.1.taxableFederal)) →
        ((replaySnapshots inp a b l st).map (fun s => roundCurrency s.1.pitCurrent)).sum =
          calculatePitTax (st.pitTaxable + (l.map (periodTaxableFederal inp a b)).sum) -
            calculatePitTax st.pitTaxable) := by
  intro l
  induction l with
  | nil =>
    intro st _
    constructor
    · simp [replaySnapshots]
    · intro _
      simp [replaySnapshots]
  | cons d rest ih =>
    intro st hst
    have hnew : (replayStep inp a b d st).2.pitTaxable =
        st.pitTaxable + periodTaxableFederal inp a b d := by
      rw [replayStep_snd_pitTaxable, if_pos hp]
      exact roundCurrency_eq_self (hst.add (isCents_periodTaxableFederal inp a b d))
    have hcents : IsCents (replayStep inp a b d st).2.pitTaxable := by
      rw [hnew]
      exact hst.add (isCents_periodTaxableFederal inp a b d)
    obtain ⟨ihle, iheq⟩ := ih (replayStep inp a b d st).2 hcents
    rw [hnew] at ihle iheq
    have hhead : roundCurrency (replayStep inp a b d st).1.pitCurrent =
        max 0 (calculatePitTax (st.pitTaxable + periodTaxableFederal inp a b d) -
          calculatePitTax st.pitTaxable) := by
      rw [replayStep_fst_pitCurrent, roundCurrency_periodPitCurrent]
      rfl
    constructor
    · simp only [replaySnapshots, List.map_cons, List.sum_cons]
      rw [hhead]
      have hmax : calculatePitTax (st.pitTaxable + periodTaxableFederal inp a b d) -
          calculatePitTax st.pitTaxable ≤
          max 0 (calculatePitTax (st.pitTaxable + periodTaxableFederal inp a b d) -
            calculatePitTax st.pitTaxable) := le_max_right _ _
      rw [show st.pitTaxable + (periodTaxableFederal inp a b d +
          (rest.map (periodTaxableFederal inp a b)).sum) =
          st.pitTaxable + periodTaxableFederal inp a b d +
            (rest.map (periodTaxableFederal inp a b)).sum from (add_assoc _ _ _).symm]
      linarith
    · intro hmono
      have hcons : replaySnapshots inp a b (d :: rest) st =
          replayStep inp a b d st ::
            replaySnapshots inp a b rest (replayStep inp a b d st).2 := rfl
      have hd0 := hmono (replayStep inp a b d st)
        (by rw [hcons]; exact List.mem_cons_self _ _)
      rw [replayStep_fst_pitTaxableBefore, replayStep_fst_taxableFederal] at hd0
      have hrest : ∀ s ∈ replaySnapshots inp a b rest (replayStep inp a b d st).2,
          calculatePitTax s.1.pitTaxableBefore ≤
            calculatePitTax (s.1.pitTaxableBefore + s.1.taxableFederal) := by
        intro s hs
        exact hmono s (by rw [hcons]; exact List.mem_cons_of_mem _ hs)
      have heq := iheq hrest
      simp only [replaySnapshots, List.map_cons, List.sum_cons]
      rw [hhead, heq, max_eq_right (by linarith)]
      ring_nf

/-- The per-period PIT amounts of the replay that `buildYtdForDate`
performs for a target pay date (the amounts of the emitted
State Income Tax lines). -/
def pitAmountsOf (inp : Inputs) (payDate : ℤ) : List ℚ :=
  (replaySnapshots inp (ytdParams inp payDate).1 (ytdParams inp payDate).2
    (datesInYear inp.hireDate payDate) initialYtd).map (fun s => roundCurrency s.1.pitCurrent)

/-- The per-period PIT-taxable wages of the same replay. -/
def pitTaxablesOf (inp : Inputs) (payDate : ℤ) : List ℚ :=
  (replaySnapshots inp (ytdParams inp payDate).1 (ytdParams inp payDate).2
    (datesInYear inp.hireDate payDate) initialYtd).map (fun s => s.1.taxableFederal)

/-- C1 (amended): with the PIT toggle enabled, every period replayed by
the YTD accumulator emits a State Income Tax line equal to
`max(0, statePitTax(YTD_before + current_taxable) - statePitTax(YTD_before))`
rounded to cents; the sum of these amounts over the replayed periods is
always at least `statePitTax` of the summed taxable wages, and equals it
exactly whenever no period's marginal delta is negative (the within-one-cent
claim fails when a delta is clamped, because the bracket bases of the PIT
table are not cumulative-consistent at 742953). -/
theorem pit_marginal_additivity (inp : Inputs) (payDate : ℤ) (hp : inp.includePit = true) :
    (∀ s ∈ replaySnapshots inp (ytdParams inp payDate).1 (ytdParams inp payDate).2
        (datesInYear inp.hireDate payDate) initialYtd,
      s.1.deductionsBase.getLast? = some ⟨"State Income Tax (PIT)",
        roundCurrency (max 0
          (calculatePitTax (s.1.pitTaxableBefore + s.1.taxableFederal) -
            calculatePitTax s.1.pitTaxableBefore))⟩) ∧
    calculatePitTax ((pitTaxablesOf inp payDate).sum) ≤ (pitAmountsOf inp payDate).sum ∧
    ((∀ s ∈ replaySnapshots inp (ytdParams inp payDate).1 (ytdParams inp payDate).2
        (datesInYear inp.hireDate payDate) initialYtd,
      calculatePitTax s.1.pitTaxableBefore ≤
        calculatePitTax (s.1.pitTaxableBefore + s.1.taxableFederal)) →
      (pitAmountsOf inp payDate).sum = calculatePitTax ((pitTaxablesOf inp payDate).sum)) := by
  have hinit : IsCents initialYtd.pitTaxable := isCents_zero
  obtain ⟨hle, heq⟩ := pit_fold inp (ytdParams inp payDate).1 (ytdParams inp payDate).2 hp
    (datesInYear inp.hireDate payDate) initialYtd hinit
  have hzero : calculatePitTax initialYtd.pitTaxable = 0 := calculatePitTax_nonpos le_rfl
  have htax : (pitTaxablesOf inp payDate).sum =
      ((datesInYear inp.hireDate payDate).map
        (periodTaxableFederal inp (ytdParams inp payDate).1 (ytdParams inp payDate).2)).sum := by
    unfold pitTaxablesOf
    rw [replaySnapshots_taxables]
  have hstart : initialYtd.pitTaxable +
      ((datesInYear inp.hireDate payDate).map
        (periodTaxableFederal inp (ytdParams inp payDate).1 (ytdParams inp payDate).2)).sum =
      (pitTaxablesOf inp payDate).sum := by
    rw [htax]
    show (0 : ℚ) + _ = _
    ring
  refine ⟨?_, ?_, ?_⟩
  · intro s hs
    obtain ⟨d', st0, _, hx⟩ := replaySnapshots_mem _ _ _ hs
    have h1 : s.1 = (replayStep inp (ytdParams inp payDate).1 (ytdParams inp payDate).2
        d' st0).1 := by rw [hx]
    rw [h1, replayStep_fst_deductionsBase, replayStep_fst_pitTaxableBefore,
      replayStep_fst_taxableFederal]
    simp only [periodDeductionsBase, taxDeductions, hp, if_true]
    simp [List.getLast?_append, periodPitCurrent]
  · rw [hstart] at hle
    rw [hzero] at hle
    unfold pitAmountsOf
    linarith
  · intro hmono
    have h := heq hmono
    rw [hstart, hzero] at h
    unfold pitAmountsOf
    rw [h]
    ring

theorem emitDraft_none (inp : Inputs) (p : ℤ) (h : shouldSkip inp.hireDate p = true) :
    emitDraft inp p = none := by
  unfold emitDraft
  rw [if_pos h]

theorem emitDraft_isSome (inp : Inputs) (p : ℤ) (h : shouldSkip inp.hireDate p = false) :
    ∃ dr, emitDraft inp p = some dr := by
  obtain ⟨pl, hpl⟩ := buildYtdForDate_isSome inp p h
  unfold emitDraft
  rw [if_neg (by simp [h]), hpl]
  exact ⟨_, rfl⟩

theorem emitDraft_pay_date {inp : Inputs} {p : ℤ} {d : PaystubDraft}
    (h : emitDraft inp p = some d) :
    d.pay_date = p ∧ shouldSkip inp.hireDate p = false := by
  unfold emitDraft at h
  by_cases hs : shouldSkip inp.hireDate p
  · rw [if_pos hs] at h; simp at h
  · rw [if_neg hs] at h
    rw [Option.map_eq_some'] at h
    obtain ⟨pl, _, h2⟩ := h
    exact ⟨by rw [← h2], by simpa using hs⟩

/-- Every scheduled candidate either yields a draft or is counted as
skipped: nothing is silently dropped. -/
theorem emit_partition (inp : Inputs) (l : List ℤ) :
    (l.filterMap (emitDraft inp)).length +
      (l.filter (fun p => shouldSkip inp.hireDate p)).length = l.length := by
  induction l with
  | nil => rfl
  | cons p rest ih =>
    by_cases h : shouldSkip inp.hireDate p
    · rw [List.filterMap_cons_none (emitDraft_none inp p h),
        List.filter_cons_of_pos h]
      simp only [List.length_cons]
      rw [show List.filter (shouldSkip inp.hireDate) rest =
        List.filter (fun p => shouldSkip inp.hireDate p) rest from rfl]
      omega
    · obtain ⟨dr, hdr⟩ := emitDraft_isSome inp p (by simpa using h)
      rw [List.filterMap_cons_some hdr, List.filter_cons_of_neg h]
      simp only [List.length_cons]
      rw [show List.filter (shouldSkip inp.hireDate) rest =
        List.filter (fun p => shouldSkip inp.hireDate p) rest from rfl]
      omega

theorem scheduledPayDates_length (M : ℤ) (n : ℕ) : (scheduledPayDates M n).length = n := by
  unfold scheduledPayDates
  rw [(List.perm_insertionSort _ _).length_eq, List.length_map, List.length_range]

theorem computed_eq (inp : Inputs) (M : ℤ) (hm : inp.mostRecentPayDate = some M)
    (hc : inp.paystubCount ≠ 0) :
    computed inp =
      ⟨(if dayOfWeek M ≠ 5 then [fridayWarning] else []) ++
        (if ((scheduledPayDates M inp.paystubCount).filter
            (fun p => shouldSkip inp.hireDate p)).length > 0 then
          [skipWarningMsg ((scheduledPayDates M inp.paystubCount).filter
            (fun p => shouldSkip inp.hireDate p)).length] else []),
       (scheduledPayDates M inp.paystubCount).filterMap (emitDraft inp),
       ((scheduledPayDates M inp.paystubCount).filter
         (fun p => shouldSkip inp.hireDate p)).length⟩ := by
  simp only [computed, hm, if_neg hc]

/-- C7 (amended): no pay period is silently omitted.  Every scheduled
candidate either yields a draft or is counted as skipped (its period end
precedes the hire date), so drafts plus skipped always equal the requested
count — in particular zero annualized pay still emits a draft — and the
skip is reported through a warning, not an error. -/
theorem no_silent_omission (inp : Inputs) (M : ℤ)
    (hm : inp.mostRecentPayDate = some M) (hc : inp.paystubCount ≠ 0) :
    (computed inp).paystubs.length + (computed inp).skipped = inp.paystubCount ∧
    (∀ d ∈ (computed inp).paystubs, shouldSkip inp.hireDate d.pay_date = false) ∧
    ((computed inp).skipped > 0 →
      skipWarningMsg ((computed inp).skipped) ∈ (computed inp).warnings) := by
  rw [computed_eq inp M hm hc]
  refine ⟨?_, ?_, ?_⟩
  · show ((scheduledPayDates M inp.paystubCount).filterMap (emitDraft inp)).length + _ = _
    rw [emit_partition, scheduledPayDates_length]
  · intro d hd
    rw [show (⟨_, (scheduledPayDates M inp.paystubCount).filterMap (emitDraft inp), _⟩ :
        ComputedResult).paystubs =
      (scheduledPayDates M inp.paystubCount).filterMap (emitDraft inp) from rfl] at hd
    rw [List.mem_filterMap] at hd
    obtain ⟨p, _, hp⟩ := hd
    obtain ⟨h1, h2⟩ := emitDraft_pay_date hp
    rw [h1]
    exact h2
  · intro hpos
    show skipWarningMsg _ ∈ _ ++ _
    rw [if_pos hpos]
    simp

/-- C5 (amended): scheduling 4 periods with the most recent pay date
exactly 3 bi-weekly periods (42 days) after the hire date yields exactly
3 valid pay periods and a skipped count of 1 — only the earliest
candidate's period end (hire − 5 days) precedes the hire date — together
with the warning reporting the skipped pre-hire period. -/
theorem hire_boundary (inp : Inputs) (h : ℤ)
    (hh : inp.hireDate = some h) (hm : inp.mostRecentPayDate = some (h + 42))
    (hc : inp.paystubCount = 4) :
    (computed inp).skipped = 1 ∧ (computed inp).paystubs.length = 3 ∧
      skipWarningMsg 1 ∈ (computed inp).warnings := by
  have hc' : inp.paystubCount ≠ 0 := by omega
  have hsched : scheduledPayDates (h + 42) inp.paystubCount = [h, h + 14, h + 28, h + 42] := by
    rw [hc]
    unfold scheduledPayDates
    have hmap : (List.range 4).map (fun i : ℕ => addDays (h + 42) (-14 * (i : ℤ))) =
        [h + 42, h + 28, h + 14, h] := by
      rw [show List.range 4 = [0, 1, 2, 3] from rfl]
      simp only [List.map_cons, List.map_nil, addDays]
      norm_num
      omega
    rw [hmap]
    apply List.eq_of_perm_of_sorted
      ((List.perm_insertionSort _ _).trans (List.reverse_perm [h + 42, h + 28, h + 14, h]).symm)
      (List.sorted_insertionSort _ _)
    show List.Sorted (fun x1 x2 => x1 ≤ x2) [h, h + 14, h + 28, h + 42]
    simp [List.sorted_cons]
  have s0 : shouldSkip inp.hireDate h = true := by
    rw [hh]
    show decide (addDays h (-5) < h) = true
    rw [decide_eq_true_eq]
    unfold addDays
    omega
  have s1 : shouldSkip inp.hireDate (h + 14) = false := by
    rw [hh]
    show decide (addDays (h + 14) (-5) < h) = false
    rw [decide_eq_false_iff_not]
    unfold addDays
    omega
  have s2 : shouldSkip inp.hireDate (h + 28) = false := by
    rw [hh]
    show decide (addDays (h + 28) (-5) < h) = false
    rw [decide_eq_false_iff_not]
    unfold addDays
    omega
  have s3 : shouldSkip inp.hireDate (h + 42) = false := by
    rw [hh]
    show decide (addDays (h + 42) (-5) < h) = false
    rw [decide_eq_false_iff_not]
    unfold addDays
    omega
  have hfilter : ([h, h + 14, h + 28, h + 42].filter
      (fun p => shouldSkip inp.hireDate p)).length = 1 := by
    simp [List.filter, s0, s1, s2, s3]
  have e0 : emitDraft inp h = none := emitDraft_none inp h s0
  obtain ⟨d1, e1⟩ := emitDraft_isSome inp (h + 14) s1
  obtain ⟨d2, e2⟩ := emitDraft_isSome inp (h + 28) s2
  obtain ⟨d3, e3⟩ := emitDraft_isSome inp (h + 42) s3
  have hfm : ([h, h + 14, h + 28, h + 42].filterMap (emitDraft inp)).length = 3 := by
    rw [List.filterMap_cons_none e0, List.filterMap_cons_some e1,
      List.filterMap_cons_some e2, List.filterMap_cons_some e3]
    rfl
  rw [computed_eq inp (h + 42) hm hc']
  refine ⟨?_, ?_, ?_⟩
  · show ((scheduledPayDates (h + 42) inp.paystubCount).filter
      (fun p => shouldSkip inp.hireDate p)).length = 1
    rw [hsched, hfilter]
  · show ((scheduledPayDates (h + 42) inp.paystubCount).filterMap (emitDraft inp)).length = 3
    rw [hsched, hfm]
  · show skipWarningMsg 1 ∈ _ ++ _
    rw [hsched, hfilter]
    simp

theorem IsCents.mul_intCast {q : ℚ} (h : IsCents q) (n : ℤ) : IsCents (q * (n : ℚ)) := by
  obtain ⟨m, hm⟩ := h
  refine ⟨m * n, ?_⟩
  have h1 : q * (n : ℚ) * 100 = q * 100 * (n : ℚ) := by ring
  rw [h1, hm]
  push_cast
  ring

theorem isLast_false_of_eq {d : ℤ} (h : yearOf (addDays d 14) = yearOf d) :
    isLastPayDateOfYear d = false := by
  simp [isLastPayDateOfYear, h]

theorem isLast_true_of_ne {d : ℤ} (h : yearOf (addDays d 14) ≠ yearOf d) :
    isLastPayDateOfYear d = true := by
  simp [isLastPayDateOfYear, h]

/-- A non-final SALARY period earns the flat rounded per-period amount. -/
theorem periodGross_salary_plain (inp : Inputs) (a b : ℚ) (d : ℤ)
    (hs : inp.payType = SALARY) (hlast : isLastPayDateOfYear d = false) :
    periodGross inp a b d = roundCurrency (inp.annualSalary / 26) := by
  unfold periodGross periodCurrent
  rw [buildCurrentLines_grossPayCurrent]
  unfold grossPayCurrentOf earningsBaseOf bonusAmountOf salaryGrossOverrideOf
  simp only [hs, hlast, Bool.and_false, if_false]
  simp
  exact roundCurrency_eq_self (isCents_roundCurrency _)

/-- The final SALARY period with no bonus earns the rounded override. -/
theorem periodGross_salary_final (inp : Inputs) (a b : ℚ) (d : ℤ)
    (hs : inp.payType = SALARY) (hlast : isLastPayDateOfYear d = true)
    (hbonus : inp.yearEndBonusRate ≤ 0) :
    periodGross inp a b d = roundCurrency b := by
  unfold periodGross periodCurrent
  rw [buildCurrentLines_grossPayCurrent]
  unfold grossPayCurrentOf earningsBaseOf bonusAmountOf salaryGrossOverrideOf
  have hbr : decide (inp.yearEndBonusRate > 0) = false := by
    rw [decide_eq_false_iff_not]
    push_neg
    exact hbonus
  simp only [hs, hlast, hbr, Bool.and_false, Bool.false_and, Bool.and_true, if_false]
  simp

theorem sum_map_const_of {α : Type} (l : List α) (f : α → ℚ) (c : ℚ)
    (h : ∀ x ∈ l, f x = c) :
    (l.map f).sum = l.length * c := by
  induction l with
  | nil => simp
  | cons x rest ih =>
    simp only [List.map_cons, List.sum_cons, List.length_cons]
    rw [h x (by simp), ih (fun y hy => h y (by simp [hy]))]
    push_cast
    ring

theorem trueUpOf_26 (S : ℚ) :
    (trueUpOf S 26).1 = roundCurrency (S / 26 * 26) ∧
    (trueUpOf S 26).2 = roundCurrency (S / 26 * 26) - roundCurrency (S / 26) * 25 := by
  unfold trueUpOf
  have h1 : ((max ((26 : ℤ) - 1) 0 : ℤ) : ℚ) = 25 := by norm_num
  have h2 : (((26 : ℕ) : ℚ)) = 26 := by norm_num
  have hc25 : IsCents (roundCurrency (S / 26) * (25 : ℚ)) := by
    have h := (isCents_roundCurrency (S / 26)).mul_intCast 25
    have e : ((25 : ℤ) : ℚ) = (25 : ℚ) := by norm_num
    rwa [e] at h
  constructor
  · show roundCurrency (S / 26 * ((26 : ℕ) : ℚ)) = _
    rw [h2]
  · show roundCurrency (roundCurrency (S / 26 * ((26 : ℕ) : ℚ)) -
      roundCurrency (roundCurrency (S / 26) * ((max ((26 : ℤ) - 1) 0 : ℤ) : ℚ))) = _
    rw [h1, h2, roundCurrency_eq_self hc25]
    exact roundCurrency_eq_self ((isCents_roundCurrency _).sub hc25)

/-- C2 (amended): for a SALARY employee with no year-end bonus, paid
exactly 26 periods in a calendar year with no mid-year hire, the final
period of the year (adding 14 days to its pay date rolls into the next
year) receives gross pay
`round(annualSalary/26 * 26) - round(annualSalary/26) * 25` instead of the
flat `round(annualSalary/26)`, and the accumulated gross over the 26
periods equals `round(annualSalary)` exactly. -/
theorem ytd_true_up (inp : Inputs) (D : ℤ)
    (hs : inp.payType = SALARY)
    (hbonus : inp.yearEndBonusRate ≤ 0)
    (hin : ∀ i : ℕ, i < 26 → yearOf (D - 14 * (i : ℤ)) = yearOf D)
    (hnohire : ∀ i : ℕ, i < 26 → shouldSkip inp.hireDate (D - 14 * (i : ℤ)) = false)
    (hstop : yearOf (D - 14 * 26) ≠ yearOf D)
    (hlast : yearOf (addDays D 14) ≠ yearOf D) :
    ∃ payload, buildYtdForDate inp D = some payload ∧
      payload.totals.gross_pay_current =
        roundCurrency (inp.annualSalary / 26 * 26) -
          roundCurrency (inp.annualSalary / 26) * 25 ∧
      payload.totals.gross_pay_ytd = roundCurrency inp.annualSalary ∧
      (datesInYear inp.hireDate D).length = 26 := by
  have hchain : datesInYearGo inp.hireDate (yearOf D) 400 D =
      (List.range 26).map (fun i : ℕ => D - 14 * (i : ℤ)) := by
    apply datesInYearGo_chain inp.hireDate (yearOf D) 26 400 D (by omega)
    · intro i hi
      exact ⟨hin i hi, hnohire i hi⟩
    · left
      intro hcontra
      apply hstop
      convert hcontra using 2
  obtain ⟨ds, hdsdef⟩ : ∃ ds : List ℤ,
      ds = ((List.range 25).map (fun i : ℕ => D - 14 * ((i : ℤ) + 1))).reverse := ⟨_, rfl⟩
  have hds : datesInYear inp.hireDate D = ds ++ [D] := by
    rw [hdsdef]
    unfold datesInYear
    have hmapeq : (List.range 25).map ((fun i : ℕ => D - 14 * (i : ℤ)) ∘ Nat.succ) =
        (List.range 25).map (fun i : ℕ => D - 14 * ((i : ℤ) + 1)) := by
      apply List.map_congr_left
      intro i _
      show D - 14 * ((i + 1 : ℕ) : ℤ) = D - 14 * ((i : ℤ) + 1)
      push_cast
      ring
    rw [hchain, List.range_succ_eq_map, List.map_cons, List.map_map, List.reverse_cons, hmapeq]
    norm_num
  have hdslen : ds.length = 25 := by rw [hdsdef]; simp
  obtain ⟨av, hav⟩ : ∃ a : ℚ, a = (trueUpOf inp.annualSalary 26).1 := ⟨_, rfl⟩
  obtain ⟨bv, hbv⟩ : ∃ b : ℚ, b = (trueUpOf inp.annualSalary 26).2 := ⟨_, rfl⟩
  have hcap := buildYtdForDate_last inp D ds av bv hds
    (by rw [hdslen]; exact hav) (by rw [hdslen]; exact hbv)
  obtain ⟨htarget, htrueup⟩ := trueUpOf_26 inp.annualSalary
  have hplain : ∀ d ∈ ds, periodGross inp av bv d = roundCurrency (inp.annualSalary / 26) := by
    intro d hd
    rw [hdsdef, List.mem_reverse, List.mem_map] at hd
    obtain ⟨i, hi, rfl⟩ := hd
    rw [List.mem_range] at hi
    apply periodGross_salary_plain inp av bv _ hs
    apply isLast_false_of_eq
    have e1 : addDays (D - 14 * ((i : ℤ) + 1)) 14 = D - 14 * (i : ℤ) := by
      unfold addDays
      ring
    rw [e1, hin i (by omega)]
    have e2 : D - 14 * ((i : ℤ) + 1) = D - 14 * ((i + 1 : ℕ) : ℤ) := by
      push_cast
      ring
    rw [e2, hin (i + 1) (by omega)]
  have hfinal : periodGross inp av bv D = roundCurrency bv :=
    periodGross_salary_final inp av bv D hs (isLast_true_of_ne hlast) hbonus
  have hbv_cents : IsCents bv := by
    rw [hbv]
    unfold trueUpOf
    exact isCents_roundCurrency _
  have hfinal' : periodGross inp av bv D = bv := by
    rw [hfinal, roundCurrency_eq_self hbv_cents]
  have hprev : (replayState inp av bv ds initialYtd).gross =
      25 * roundCurrency (inp.annualSalary / 26) := by
    rw [replayState_gross inp av bv ds initialYtd isCents_zero]
    rw [sum_map_const_of ds (periodGross inp av bv) (roundCurrency (inp.annualSalary / 26))
      hplain, hdslen]
    show (0 : ℚ) + _ = _
    push_cast
    ring
  refine ⟨_, hcap, ?_, ?_, by rw [hds]; simp [hdslen]⟩
  · show (replayStep inp av bv D
      (replayState inp av bv ds initialYtd)).1.current.grossPayCurrent = _
    rw [replayStep_fst_current]
    show periodGross inp av bv D = _
    rw [hfinal', hbv, htrueup]
  · show (replayStep inp av bv D (replayState inp av bv ds initialYtd)).2.gross = _
    rw [replayStep_snd_gross]
    show roundCurrency ((replayState inp av bv ds initialYtd).gross +
      periodGross inp av bv D) = _
    rw [hfinal', hprev]
    have hc25 : IsCents (25 * roundCurrency (inp.annualSalary / 26)) := by
      have h := (isCents_roundCurrency (inp.annualSalary / 26)).mul_intCast 25
      have e : ((25 : ℤ) : ℚ) = (25 : ℚ) := by norm_num
      rw [e] at h
      rwa [mul_comm] at h
    rw [roundCurrency_eq_self (hc25.add hbv_cents), hbv, htrueup]
    have hS : inp.annualSalary / 26 * 26 = inp.annualSalary := by
      field_simp
    rw [hS]
    ring


unseal Rat.add Rat.mul Rat.inv Rat.ofScientific Rat.sub

/-- The spec's worked example configuration: SALARY 130000, hired
2025-01-03, most recent pay date 2026-01-02 (a Friday), one period,
default toggles and rates. -/
def exInputs : Inputs :=
  { payType := SALARY
    annualSalary := 130000
    hourlyRate := 0
    hoursWorked := 80
    hireDate := some (daysFromCivil 2025 1 3)
    mostRecentPayDate := some (daysFromCivil 2026 1 2)
    paystubCount := 1
    includeFederal := true
    includeSocialSecurity := true
    includeMedicare := true
    includePit := true
    includeSdi := true
    includeHealth := true
    includeContractorFee := false
    include401k := true
    ssRate := 6.2
    medicareRate := 1.45
    pitRate := 0
    sdiRate := 1.1
    healthAmount := 119
    contractorFeeRate := 0
    yearEndBonusRate := 0
    rate401k := 5 }

/-- The example target pay date, 2026-01-02. -/
def exDate : ℤ := daysFromCivil 2026 1 2

/-- The single draft the example generates. -/
def exDraft : PaystubDraft := (computed exInputs).paystubs.headI

/-- A CONTRACTOR configuration with the contractor fee enabled and all the
withholding toggles initially on (the payType effect turns them off). -/
def exContractor : Inputs :=
  { exInputs with
    payType := CONTRACTOR
    hourlyRate := 50
    includeContractorFee := true
    contractorFeeRate := 10 }

/-- The contractor example's draft. -/
def exContractorDraft : PaystubDraft :=
  (computed (applyPayTypeEffect exContractor)).paystubs.headI

/-- The contractor example's single deduction line (the fee). -/
def exContractorLine : DeductionLine := exContractorDraft.deductions.headI

/-- Hire-boundary configuration: hired 2025-11-07, most recent pay date 42
days later, 4 periods requested. -/
def hbInputs : Inputs :=
  { exInputs with
    hireDate := some (daysFromCivil 2025 11 7)
    mostRecentPayDate := some (daysFromCivil 2025 11 7 + 42)
    paystubCount := 4 }

/-- Date 2025-12-26, the last bi-weekly pay date of a 26-period year. -/
def yearEndDate : ℤ := daysFromCivil 2025 12 26

/-- Year-end bonus configuration violating the unqualified true-up claim. -/
def bonusCexInputs : Inputs :=
  { exInputs with
    hireDate := none
    mostRecentPayDate := some yearEndDate
    yearEndBonusRate := 10 }

/-- The bonus-free variant used to witness the amended true-up claim. -/
def trueUpWitnessInputs : Inputs :=
  { exInputs with
    hireDate := none
    mostRecentPayDate := some yearEndDate }

/-- Zero annual salary: the engine still emits a draft. -/
def zeroCexInputs : Inputs :=
  { exInputs with
    annualSalary := 0
    hireDate := none
    mostRecentPayDate := some yearEndDate }

/-- An annualized pay inside the 48475–48476 federal bracket gap. -/
def gapCexInputs : Inputs :=
  { exInputs with
    annualSalary := 48475.5
    hireDate := none
    mostRecentPayDate := some yearEndDate }

/-- Date 2027-12-31, the last pay date of a 27-period year. -/
def pitCexDate : ℤ := daysFromCivil 2027 12 31

/-- A configuration whose year-to-date PIT-taxable wages cross the 742953
bracket boundary with a small final increment, so the clamped marginal
delta breaks additivity: 401(k) at 200%, a negative health amount and a
tuned year-end bonus make the final period's taxable wage exactly 1.00. -/
def pitCexInputs : Inputs :=
  { exInputs with
    annualSalary := 260000
    hireDate := none
    mostRecentPayDate := some pitCexDate
    paystubCount := 27
    healthAmount := -38575.11
    yearEndBonusRate := 10.5830037
    rate401k := 200 }

/-- An annualized pay of 48475.50 falls in the gap between the 12% bracket
(max 48475) and the 22% bracket (min 48476): no bracket matches and the
federal rate silently becomes 0, refuting the claim that every non-negative
income falls in exactly one bracket. -/
theorem federal_totality_counterexample :
    (0 : ℚ) ≤ 48475.5 ∧
    FEDERAL_BRACKETS.find? (fun e => inRange (48475.5 : ℚ) e.min e.max) = none ∧
    getFederalRate (48475.5 : ℚ) = 0 := by decide

/-- With hire date 2025-11-07 and four requested periods ending 42 days
after hiring, the engine emits three paystubs and skips one, not one
paystub and three skips as the claim states. -/
theorem hire_boundary_counterexample :
    hbInputs.hireDate = some (daysFromCivil 2025 11 7) ∧
    hbInputs.mostRecentPayDate = some (daysFromCivil 2025 11 7 + 42) ∧
    hbInputs.paystubCount = 4 ∧
    (computed hbInputs).paystubs.length = 3 ∧ (computed hbInputs).skipped = 1 ∧
    ¬ ((computed hbInputs).paystubs.length = 1 ∧ (computed hbInputs).skipped = 3) := by
  decide

/-- A SALARY employee with annual salary 0 has zero annualized pay, yet the
engine still emits a draft, refuting the claim that zero-pay periods are
omitted with a warning. -/
theorem zero_pay_counterexample :
    zeroCexInputs.payType = SALARY ∧ annualizedPay zeroCexInputs = 0 ∧
    (computed zeroCexInputs).paystubs.length = 1 := by decide

/-- With includeFederal on but an annualized pay inside a bracket gap, the
federal rate is 0 and the Federal Income Tax line is absent from the
deduction list, refuting the claim that the line appears whenever the
toggle is on. -/
theorem deduction_order_counterexample :
    gapCexInputs.includeFederal = true ∧
    (computed gapCexInputs).paystubs.map (fun d => d.deductions.map
      (fun l => l.deduction_name)) =
      [["401(k) Contribution", "Health Plan", "Social Security", "Medicare",
        "State Disability (SDI)", "State Income Tax (PIT)"]] ∧
    ∀ d ∈ (computed gapCexInputs).paystubs,
      "Federal Income Tax" ∉ d.deductions.map (fun l => l.deduction_name) := by decide

set_option maxRecDepth 100000 in
/-- With a 10% year-end bonus, the final period gross is 18000 and the YTD
gross 143000, not the 5000 true-up residual and 130000 annual salary the
unqualified claim predicts. -/
theorem ytd_true_up_counterexample :
    bonusCexInputs.payType = SALARY ∧ bonusCexInputs.hireDate = none ∧
    (datesInYear bonusCexInputs.hireDate yearEndDate).length = 26 ∧
    yearOf (addDays yearEndDate 14) ≠ yearOf yearEndDate ∧
    (buildYtdForDate bonusCexInputs yearEndDate).map (fun p => p.totals.gross_pay_current) =
      some 18000 ∧
    (buildYtdForDate bonusCexInputs yearEndDate).map (fun p => p.totals.gross_pay_ytd) =
      some 143000 ∧
    roundCurrency ((130000 : ℚ) / 26 * 26) - roundCurrency ((130000 : ℚ) / 26) * 25 = 5000 ∧
    roundCurrency (130000 : ℚ) = 130000 ∧
    (18000 : ℚ) ≠ 5000 ∧ (143000 : ℚ) ≠ 130000 := by decide

set_option maxRecDepth 100000 in
/-- Across a 27-period year whose cumulative PIT-taxable wages cross the
inconsistent 742953 bracket boundary, the per-period marginal PIT amounts
sum to 72233.11 while the tax of the total is 72217.31: the difference is
15.80, far outside one cent. -/
theorem pit_additivity_counterexample :
    pitCexInputs.includePit = true ∧
    (pitAmountsOf pitCexInputs pitCexDate).sum = 7223311 / 100 ∧
    calculatePitTax ((pitTaxablesOf pitCexInputs pitCexDate).sum) = 7221731 / 100 ∧
    ¬ (|(pitAmountsOf pitCexInputs pitCexDate).sum -
        calculatePitTax ((pitTaxablesOf pitCexInputs pitCexDate).sum)| ≤ 1 / 100) := by
  decide

/-- Witness for C3 at the worked example. -/
theorem net_invariant_witness :
    exDraft ∈ (computed exInputs).paystubs ∧
    (exDraft.totals.net_pay_current =
      exDraft.totals.gross_pay_current - exDraft.totals.total_deductions_current ∧
    exDraft.totals.net_pay_ytd =
      exDraft.totals.gross_pay_ytd - exDraft.totals.total_deductions_ytd) :=
  ⟨by decide, net_invariant exInputs exDraft (by decide)⟩

/-- Witness for C10 at the worked example replay step. -/
theorem pit_base_matches_federal_base_witness :
    exInputs.includePit = true ∧
    ((replayStep exInputs 130000 5000 exDate initialYtd).1.taxableFederal =
      max 0 ((replayStep exInputs 130000 5000 exDate initialYtd).1.current.grossPayCurrent -
        preTax401kOf exInputs
          (replayStep exInputs 130000 5000 exDate initialYtd).1.current.grossPayCurrent -
        preTaxHealthOf exInputs) ∧
    (replayStep exInputs 130000 5000 exDate initialYtd).2.pitTaxable =
      roundCurrency (initialYtd.pitTaxable +
        (replayStep exInputs 130000 5000 exDate initialYtd).1.taxableFederal) ∧
    (replayStep exInputs 130000 5000 exDate initialYtd).1.taxableFica =
      max 0 ((replayStep exInputs 130000 5000 exDate initialYtd).1.current.grossPayCurrent -
        preTaxHealthOf exInputs) ∧
    (replayStep exInputs 130000 5000 exDate initialYtd).1.taxableSdi =
      max 0 ((replayStep exInputs 130000 5000 exDate initialYtd).1.current.grossPayCurrent -
        preTaxHealthOf exInputs)) :=
  ⟨rfl, pit_base_matches_federal_base exInputs 130000 5000 exDate initialYtd rfl⟩

/-- Witness for the amended C1 at the worked example. -/
theorem pit_marginal_additivity_witness :
    exInputs.includePit = true ∧
    ((∀ s ∈ replaySnapshots exInputs (ytdParams exInputs exDate).1 (ytdParams exInputs exDate).2
        (datesInYear exInputs.hireDate exDate) initialYtd,
      s.1.deductionsBase.getLast? = some ⟨"State Income Tax (PIT)",
        roundCurrency (max 0
          (calculatePitTax (s.1.pitTaxableBefore + s.1.taxableFederal) -
            calculatePitTax s.1.pitTaxableBefore))⟩) ∧
    calculatePitTax ((pitTaxablesOf exInputs exDate).sum) ≤ (pitAmountsOf exInputs exDate).sum ∧
    ((∀ s ∈ replaySnapshots exInputs (ytdParams exInputs exDate).1 (ytdParams exInputs exDate).2
        (datesInYear exInputs.hireDate exDate) initialYtd,
      calculatePitTax s.1.pitTaxableBefore ≤
        calculatePitTax (s.1.pitTaxableBefore + s.1.taxableFederal)) →
      (pitAmountsOf exInputs exDate).sum = calculatePitTax ((pitTaxablesOf exInputs exDate).sum))) :=
  ⟨rfl, pit_marginal_additivity exInputs exDate rfl⟩

/-- Witness for the amended C2 on a bonus-free 26-period year. -/
theorem ytd_true_up_witness :
    trueUpWitnessInputs.payType = SALARY ∧ trueUpWitnessInputs.yearEndBonusRate ≤ 0 ∧
    (∃ payload, buildYtdForDate trueUpWitnessInputs yearEndDate = some payload ∧
      payload.totals.gross_pay_current =
        roundCurrency (trueUpWitnessInputs.annualSalary / 26 * 26) -
          roundCurrency (trueUpWitnessInputs.annualSalary / 26) * 25 ∧
      payload.totals.gross_pay_ytd = roundCurrency trueUpWitnessInputs.annualSalary ∧
      (datesInYear trueUpWitnessInputs.hireDate yearEndDate).length = 26) :=
  ⟨rfl, by decide,
    ytd_true_up trueUpWitnessInputs yearEndDate rfl (by decide) (by decide) (by decide)
      (by decide) (by decide)⟩

/-- Witness for the amended C4 at annualized pay 50000. -/
theorem federal_bracket_totality_witness :
    (0 : ℚ) ≤ 50000 ∧
    ((¬ federalGap 50000 →
      ∃ b ∈ FEDERAL_BRACKETS, (b.min ≤ (50000 : ℚ) ∧ ∀ m ∈ b.max, (50000 : ℚ) ≤ m) ∧
        getFederalRate 50000 = b.rate) ∧
    (federalGap 50000 →
      FEDERAL_BRACKETS.find? (fun e => inRange (50000 : ℚ) e.min e.max) = none ∧
        getFederalRate 50000 = 0)) :=
  ⟨by decide, federal_bracket_totality 50000 (by decide)⟩

/-- Witness for the amended C5 on the hire-boundary configuration. -/
theorem hire_boundary_witness :
    hbInputs.hireDate = some (daysFromCivil 2025 11 7) ∧
    hbInputs.mostRecentPayDate = some (daysFromCivil 2025 11 7 + 42) ∧
    hbInputs.paystubCount = 4 ∧
    ((computed hbInputs).skipped = 1 ∧ (computed hbInputs).paystubs.length = 3 ∧
      skipWarningMsg 1 ∈ (computed hbInputs).warnings) :=
  ⟨rfl, rfl, rfl, hire_boundary hbInputs (daysFromCivil 2025 11 7) rfl rfl rfl⟩

/-- Witness for C6 on the contractor configuration. -/
theorem contractor_exclusions_witness :
    exContractor.payType = CONTRACTOR ∧
    exContractorDraft ∈ (computed (applyPayTypeEffect exContractor)).paystubs ∧
    exContractorLine ∈ exContractorDraft.deductions ∧
    exContractorLine.deduction_name ∉ excludedContractorNames :=
  ⟨rfl, by decide, by decide,
    contractor_exclusions exContractor rfl exContractorDraft (by decide)
      exContractorLine (by decide)⟩

/-- Witness for the amended C7 at the worked example. -/
theorem no_silent_omission_witness :
    exInputs.mostRecentPayDate = some exDate ∧ exInputs.paystubCount ≠ 0 ∧
    ((computed exInputs).paystubs.length + (computed exInputs).skipped =
      exInputs.paystubCount ∧
    (∀ d ∈ (computed exInputs).paystubs, shouldSkip exInputs.hireDate d.pay_date = false) ∧
    ((computed exInputs).skipped > 0 →
      skipWarningMsg ((computed exInputs).skipped) ∈ (computed exInputs).warnings)) :=
  ⟨rfl, by decide, no_silent_omission exInputs exDate rfl (by decide)⟩

/-- Witness for C8 at the worked example. -/
theorem leave_caps_and_monotone_witness :
    exDraft ∈ (computed exInputs).paystubs ∧ exInputs.payType = SALARY ∧
    ((1 ≤ (datesInYear exInputs.hireDate exDraft.pay_date).length ∧
      exDraft.leave_balances = some
        ⟨vacationAccruedAt (datesInYear exInputs.hireDate exDraft.pay_date).length, 0,
         vacationAccruedAt (datesInYear exInputs.hireDate exDraft.pay_date).length,
         sickAccruedAt (datesInYear exInputs.hireDate exDraft.pay_date).length, 0,
         sickAccruedAt (datesInYear exInputs.hireDate exDraft.pay_date).length⟩) ∧
    (∀ k : ℕ, vacationAccruedAt k ≤ 120 ∧ sickAccruedAt k ≤ 80) ∧
    (∀ k1 k2 : ℕ, k1 ≤ k2 →
      vacationAccruedAt k1 ≤ vacationAccruedAt k2 ∧ sickAccruedAt k1 ≤ sickAccruedAt k2) ∧
    (∀ k : ℕ, 39 ≤ k → vacationAccruedAt k = 120) ∧
    (∀ k : ℕ, 52 ≤ k → sickAccruedAt k = 80)) :=
  ⟨by decide, rfl, leave_caps_and_monotone exInputs exDraft (by decide) rfl⟩

/-- Witness for the amended C9 at the worked example. -/
theorem deduction_names_order_witness :
    exDraft ∈ (computed exInputs).paystubs ∧
    exDraft.deductions.map (fun dl => dl.deduction_name) = expectedDeductionNames exInputs :=
  ⟨by decide, deduction_names_order exInputs exDraft (by decide)⟩

end Kyronix
